import Mathlib

/-!
# Read-only views of `mathops` numeric values

A shallow embedding of `fixeddecimalreadonly.go` and `bigintnumreadonly.go`
(Go package `mathops`).

* `*big.Int` values are addresses into an explicit store (`Heap`), so that
  aliasing between a value, its copies and a view can be stated.
* A method with a pointer receiver takes the receiver and the store and
  returns the updated receiver and store next to its result.
* `sync.Mutex` is not re-entrant: `Lock()` on a mutex that is already held
  never returns in a sequential execution.  That outcome is `Outcome.blocked`.
* The types `BigIntFixedDecimal` and `BigIntNum` are used by the two source
  files but declared elsewhere; their operations are modelled from the
  specification and marked as such.
* For the concurrency of readers, one call is split into its statements and two readers
  of one view are interleaved by a schedule (`TwoReaders`); there a mutex has an identity.
* The getters of the view take the accessors of the wrapped value they delegate to as a
  parameter (`Delegates`), so that what the getter itself does can be told apart from what
  the accessor does.
* Native integers (`int`, `int32`, `int64`, `uint`, `uint32`, `uint64`) are
  `Int` and `Nat`: the factories store them unchanged and do no arithmetic,
  so no overflow arises.
-/

namespace MathOps

/-! ## Store of `big.Int` objects -/

/-- Address of a `big.Int` object. -/
abbrev Addr := Nat

/-- Every `big.Int` allocated so far; the address of an object is its position. -/
abbrev Heap := List Int

/-- Value of the `big.Int` stored at address `a`. -/
def bigRead (h : Heap) (a : Addr) : Int := h.getD a 0

/-- Go `big.NewInt(x)`: allocates a new object and returns its address. -/
def bigNewInt (x : Int) (h : Heap) : Addr × Heap := (h.length, h ++ [x])

/-- In-place update of the `big.Int` at address `a` (Go `p.Set(x)` on a caller-held pointer). -/
def bigSet (h : Heap) (a : Addr) (x : Int) : Heap := h.set a x

/-- A `*big.Int` that is `nil` or points to an allocated object. -/
def ptrValid (p : Option Addr) (h : Heap) : Prop := ∀ a, p = some a → a < h.length

/-! ## `sync.Mutex` -/

/-- State of a `sync.Mutex`. -/
structure Mutex where
  locked : Bool
deriving DecidableEq, Repr

/-- Go `m.Lock()` in a sequential execution: `none` when the mutex is already held
(the caller waits forever). -/
def Mutex.Lock (m : Mutex) : Option Mutex :=
  if m.locked then none else some ⟨true⟩

/-- Go `m.Unlock()`: `none` is the runtime's fatal error on a mutex that is not held. -/
def Mutex.Unlock (m : Mutex) : Option Mutex :=
  if m.locked then some ⟨false⟩ else none

/-! ## `BigIntFixedDecimal` (declared outside the two source files) -/

/-- Modelled from the spec: the type `BigIntFixedDecimal` (spec name FixedDecimal), whose
declaration is missing. `magnitude` is the unbounded integer with the decimal point
removed, held through a `*big.Int` that is `nil` in the zero value of the struct;
`scale` is the number of fractional digits. -/
structure BigIntFixedDecimal where
  magnitude : Option Addr
  scale : Nat
deriving DecidableEq, Repr

namespace BigIntFixedDecimal

/-- Modelled from the spec: the missing method `BigIntFixedDecimal.IsValid`. It returns false
only for an unconstructed instance and, as a side effect, self-heals such an instance
into canonical zero (magnitude 0 at scale 0). -/
def IsValid (fd : BigIntFixedDecimal) (h : Heap) : Bool × BigIntFixedDecimal × Heap :=
  match fd.magnitude with
  | some _ => (true, fd, h)
  | none =>
    let (a, h1) := bigNewInt 0 h
    (false, { magnitude := some a, scale := 0 }, h1)

/-- The pair (magnitude, scale) an instance stands for; an unconstructed instance stands
for canonical zero, the value it self-heals to. -/
def value (fd : BigIntFixedDecimal) (h : Heap) : Int × Nat :=
  match fd.magnitude with
  | some a => (bigRead h a, fd.scale)
  | none => (0, 0)

/-- Modelled from the spec: the missing method `BigIntFixedDecimal.GetInteger`. It returns
the raw magnitude as an independent copy. -/
def GetInteger (fd : BigIntFixedDecimal) (h : Heap) : Option Addr × BigIntFixedDecimal × Heap :=
  let (_, fd1, h1) := fd.IsValid h
  let (a, h2) := bigNewInt (fd1.value h1).1 h1
  (some a, fd1, h2)

/-- Modelled from the spec: the missing method `BigIntFixedDecimal.GetPrecision`: returns
the scale. -/
def GetPrecision (fd : BigIntFixedDecimal) (h : Heap) : Nat × BigIntFixedDecimal × Heap :=
  let (_, fd1, h1) := fd.IsValid h
  (fd1.scale, fd1, h1)

/-- Modelled from the spec: the missing method `BigIntFixedDecimal.GetPrecisionBigInt`
(spec name GetPrecisionAsBigInteger): the scale as a new big integer. -/
def GetPrecisionBigInt (fd : BigIntFixedDecimal) (h : Heap) :
    Option Addr × BigIntFixedDecimal × Heap :=
  let (_, fd1, h1) := fd.IsValid h
  let (a, h2) := bigNewInt (fd1.scale : Int) h1
  (some a, fd1, h2)

/-- Modelled from the spec: the missing method `BigIntFixedDecimal.IsZero`: true iff the
magnitude is exactly zero, whatever the scale. -/
def IsZero (fd : BigIntFixedDecimal) (h : Heap) : Bool × BigIntFixedDecimal × Heap :=
  let (_, fd1, h1) := fd.IsValid h
  (decide ((fd1.value h1).1 = 0), fd1, h1)

/-- Modelled from the spec: the missing method `BigIntFixedDecimal.CopyOut`: returns an
independent clone of the receiver. -/
def CopyOut (fd : BigIntFixedDecimal) (h : Heap) :
    BigIntFixedDecimal × BigIntFixedDecimal × Heap :=
  let (_, fd1, h1) := fd.IsValid h
  let (a, h2) := bigNewInt (fd1.value h1).1 h1
  ({ magnitude := some a, scale := fd1.scale }, fd1, h2)

/-- Modelled from the spec: the missing method `BigIntFixedDecimal.CopyIn`: replaces the
entire state of the receiver with a deep copy of the state of `other`. The result is the
new state of the receiver. -/
def CopyIn (_fd other : BigIntFixedDecimal) (h : Heap) : BigIntFixedDecimal × Heap :=
  let (a, h1) := bigNewInt (other.value h).1 h
  ({ magnitude := some a, scale := (other.value h).2 }, h1)

/-- Modelled from the spec: the factory family FromInteger(value, scale): a value whose
magnitude equals `value` and whose scale equals `scale`. -/
def FromInteger (value : Int) (scale : Nat) (h : Heap) : BigIntFixedDecimal × Heap :=
  let (a, h1) := bigNewInt value h
  ({ magnitude := some a, scale := scale }, h1)

/-- Modelled from the spec: the missing factory `BigIntFixedDecimal.NewZero` (FromZero):
magnitude 0 at the given scale. -/
def NewZero (precision : Nat) (h : Heap) : BigIntFixedDecimal × Heap :=
  FromInteger 0 precision h

/-- Modelled from the spec: the missing factory `BigIntFixedDecimal.NewInt` (FromInteger for
Go `int`). -/
def NewInt (intValue : Int) (precision : Nat) (h : Heap) : BigIntFixedDecimal × Heap :=
  FromInteger intValue precision h

/-- Modelled from the spec: the missing factory `BigIntFixedDecimal.NewInt32` (FromInteger
for Go `int32`). -/
def NewInt32 (int32Value : Int) (precision : Nat) (h : Heap) : BigIntFixedDecimal × Heap :=
  FromInteger int32Value precision h

/-- Modelled from the spec: the missing factory `BigIntFixedDecimal.NewInt64` (FromInteger
for Go `int64`). -/
def NewInt64 (int64Value : Int) (precision : Nat) (h : Heap) : BigIntFixedDecimal × Heap :=
  FromInteger int64Value precision h

/-- Modelled from the spec: the missing factory `BigIntFixedDecimal.NewUInt` (FromInteger
for Go `uint`). -/
def NewUInt (uintValue : Nat) (precision : Nat) (h : Heap) : BigIntFixedDecimal × Heap :=
  FromInteger (uintValue : Int) precision h

/-- Modelled from the spec: the missing factory `BigIntFixedDecimal.NewUInt32` (FromInteger
for Go `uint32`). -/
def NewUInt32 (uint32Value : Nat) (precision : Nat) (h : Heap) : BigIntFixedDecimal × Heap :=
  FromInteger (uint32Value : Int) precision h

/-- Modelled from the spec: the missing factory `BigIntFixedDecimal.NewUInt64` (FromInteger
for Go `uint64`). -/
def NewUInt64 (uint64Value : Nat) (precision : Nat) (h : Heap) : BigIntFixedDecimal × Heap :=
  FromInteger (uint64Value : Int) precision h

/-- Left-pads a digit sequence with zeros up to `n` digits. -/
def zeroPad (n : Nat) (ds : List Char) : List Char :=
  List.replicate (n - ds.length) '0' ++ ds

/-- Modelled from the spec: the canonical decimal string of GetNumStr: a minus sign only if
negative, the digits of the integer part, then, if the scale is positive, a period followed
by exactly `scale` digits; no grouping. -/
def formatNumStr (m : Int) (scale : Nat) : String :=
  let ds := zeroPad (scale + 1) (Nat.toDigits 10 m.natAbs)
  let ip := ds.take (ds.length - scale)
  let fp := ds.drop (ds.length - scale)
  String.mk ((if m < 0 then ['-'] else []) ++ ip ++ (if 0 < scale then '.' :: fp else []))

/-- Modelled from the spec: the missing method `BigIntFixedDecimal.GetNumStr`. -/
def GetNumStr (fd : BigIntFixedDecimal) (h : Heap) : String × BigIntFixedDecimal × Heap :=
  let (_, fd1, h1) := fd.IsValid h
  (formatNumStr (fd1.value h1).1 (fd1.value h1).2, fd1, h1)

/-- A number-string grammar: the text of a parse error, or the magnitude and scale read. -/
abbrev NumStrGrammar := String → Except String (Int × Nat)

/-- Modelled from the spec: the missing method `BigIntFixedDecimal.SetNumStr` (ParseString).
The grammar is the parameter `parse`; on success the state of the receiver is replaced as
a whole by the parsed magnitude and scale, on failure the error text is returned and the
receiver is left as it was. -/
def SetNumStr (parse : NumStrGrammar) (fd : BigIntFixedDecimal) (numStr : String) (h : Heap) :
    Option String × BigIntFixedDecimal × Heap :=
  match parse numStr with
  | .error e => (some e, fd, h)
  | .ok (m, s) =>
    let (a, h1) := bigNewInt m h
    (none, { magnitude := some a, scale := s }, h1)

/-- Value of a run of decimal digits. -/
def digitsToNat (ds : List Char) : Nat :=
  ds.foldl (fun n c => 10 * n + (c.toNat - 48)) 0

/-- Modelled from the spec: the grammar of ParseString. A leading minus sign or enclosing
parentheses make the value negative; then digits with an optional single period; grouping
commas of the integer portion are stripped; anything else, and a string without digits, is
rejected with an error that identifies the input. -/
def parseNumStr : NumStrGrammar := fun numStr =>
  let cs := numStr.toList
  let signed : Bool × List Char :=
    match cs with
    | '-' :: rest => (true, rest)
    | '(' :: rest => if rest.getLast? = some ')' then (true, rest.dropLast) else (false, cs)
    | _ => (false, cs)
  let ip := (signed.2.takeWhile (fun c => c != '.')).filter (fun c => c != ',')
  let fp := (signed.2.dropWhile (fun c => c != '.')).drop 1
  if (ip ++ fp).isEmpty || !(ip ++ fp).all Char.isDigit then
    .error ("invalid number string: " ++ numStr)
  else
    let n : Int := (digitsToNat (ip ++ fp) : Int)
    .ok (if signed.1 then -n else n, fp.length)

end BigIntFixedDecimal

/-- The accessors of the wrapped `BigIntFixedDecimal` to which the getters of the view
delegate, taken as parameters because their code is outside the two source files. Each
takes the receiver and the store; `none` is a call that fails instead of returning (for
instance a nil magnitude dereferenced). -/
structure Delegates where
  CopyOut : BigIntFixedDecimal → Heap → Option (BigIntFixedDecimal × BigIntFixedDecimal × Heap)
  GetInteger : BigIntFixedDecimal → Heap → Option (Option Addr × BigIntFixedDecimal × Heap)
  GetNumStr : BigIntFixedDecimal → Heap → Option (String × BigIntFixedDecimal × Heap)
  GetPrecision : BigIntFixedDecimal → Heap → Option (Nat × BigIntFixedDecimal × Heap)
  GetPrecisionBigInt :
    BigIntFixedDecimal → Heap → Option (Option Addr × BigIntFixedDecimal × Heap)

/-- The accessors as modelled from the spec: they never fail. -/
def Delegates.modelled : Delegates where
  CopyOut := fun fd h => some (fd.CopyOut h)
  GetInteger := fun fd h => some (fd.GetInteger h)
  GetNumStr := fun fd h => some (fd.GetNumStr h)
  GetPrecision := fun fd h => some (fd.GetPrecision h)
  GetPrecisionBigInt := fun fd h => some (fd.GetPrecisionBigInt h)

/-- Accessors that fail on an unconstructed receiver (nil magnitude) and otherwise do what
the spec says. -/
def Delegates.strict : Delegates where
  CopyOut := fun fd h => if fd.magnitude.isSome then some (fd.CopyOut h) else none
  GetInteger := fun fd h => if fd.magnitude.isSome then some (fd.GetInteger h) else none
  GetNumStr := fun fd h => if fd.magnitude.isSome then some (fd.GetNumStr h) else none
  GetPrecision := fun fd h => if fd.magnitude.isSome then some (fd.GetPrecision h) else none
  GetPrecisionBigInt := fun fd h =>
    if fd.magnitude.isSome then some (fd.GetPrecisionBigInt h) else none

/-- The accessors do what the spec says on every constructed receiver; on an unconstructed
receiver they are unconstrained and may fail. -/
def Delegates.Sound (d : Delegates) : Prop :=
  ∀ (fd : BigIntFixedDecimal) (h : Heap), fd.magnitude.isSome →
    d.CopyOut fd h = some (fd.CopyOut h) ∧
    d.GetInteger fd h = some (fd.GetInteger h) ∧
    d.GetNumStr fd h = some (fd.GetNumStr h) ∧
    d.GetPrecision fd h = some (fd.GetPrecision h) ∧
    d.GetPrecisionBigInt fd h = some (fd.GetPrecisionBigInt h)

/-! ## `FixedDecimalReadOnly` -/

/-- Go `type FixedDecimalReadOnly struct`; `lock` is `none` for a nil `*sync.Mutex`. -/
structure FixedDecimalReadOnly where
  fixedDecimal : BigIntFixedDecimal
  lock : Option Mutex
deriving DecidableEq, Repr

/-- Result of calling a method on a `*FixedDecimalReadOnly` receiver. -/
inductive Outcome (α : Type) where
  /-- The call returned `value`; `receiver` and `heap` are the state it left. -/
  | returned (value : α) (receiver : FixedDecimalReadOnly) (heap : Heap)
  /-- The call called `Lock()` on a held mutex and never returns. -/
  | blocked
  /-- The call ended in a runtime error instead of returning: unlock of an unlocked mutex,
  or a failure inside a method of the wrapped value. -/
  | fatal
deriving DecidableEq, Repr

namespace FixedDecimalReadOnly

/-- Method entry: `if fDecRO.lock == nil { fDecRO.lock = new(sync.Mutex) }` followed by
`fDecRO.lock.Lock()`. `none` when `Lock()` does not return. -/
def acquire (fDecRO : FixedDecimalReadOnly) : Option FixedDecimalReadOnly :=
  let m : Mutex := match fDecRO.lock with
    | none => ⟨false⟩
    | some m => m
  match m.Lock with
  | none => none
  | some m1 => some { fDecRO with lock := some m1 }

/-- Method exit: the deferred `fDecRO.lock.Unlock()`, then the return of `value`. -/
def release {α : Type} (value : α) (fDecRO : FixedDecimalReadOnly) (h : Heap) : Outcome α :=
  match fDecRO.lock with
  | none => .fatal
  | some m =>
    match m.Unlock with
    | none => .fatal
    | some m1 => .returned value { fDecRO with lock := some m1 } h

/-- Go `func (fDecRO *FixedDecimalReadOnly) GetInteger() *big.Int`, with the accessor of
the wrapped value it delegates to as a parameter. -/
def GetIntegerBy (d : Delegates) (fDecRO : FixedDecimalReadOnly) (h : Heap) :
    Outcome (Option Addr) :=
  match fDecRO.acquire with
  | none => .blocked
  | some s =>
    let (_, fd1, h1) := s.fixedDecimal.IsValid h
    let (_, fd2, h2) := fd1.IsValid h1
    match d.GetInteger fd2 h2 with
    | none => .fatal
    | some (r, fd3, h3) => release r { s with fixedDecimal := fd3 } h3

/-- Go `func (fDecRO *FixedDecimalReadOnly) GetInteger() *big.Int`, delegating to the
accessor modelled from the spec. -/
def GetInteger (fDecRO : FixedDecimalReadOnly) (h : Heap) : Outcome (Option Addr) :=
  GetIntegerBy Delegates.modelled fDecRO h

/-- Go `func (fDecRO *FixedDecimalReadOnly) GetPrecisionBigInt() *big.Int`, with the
accessor of the wrapped value it delegates to as a parameter. -/
def GetPrecisionBigIntBy (d : Delegates) (fDecRO : FixedDecimalReadOnly) (h : Heap) :
    Outcome (Option Addr) :=
  match fDecRO.acquire with
  | none => .blocked
  | some s =>
    let (_, fd1, h1) := s.fixedDecimal.IsValid h
    match d.GetPrecisionBigInt fd1 h1 with
    | none => .fatal
    | some (r, fd2, h2) => release r { s with fixedDecimal := fd2 } h2

/-- Go `func (fDecRO *FixedDecimalReadOnly) GetPrecisionBigInt() *big.Int`, delegating to
the accessor modelled from the spec. -/
def GetPrecisionBigInt (fDecRO : FixedDecimalReadOnly) (h : Heap) : Outcome (Option Addr) :=
  GetPrecisionBigIntBy Delegates.modelled fDecRO h

/-- Go `if p == nil { p = big.NewInt(0) }`. -/
def orNewZero (p : Option Addr) (h : Heap) : Option Addr × Heap :=
  match p with
  | some a => (some a, h)
  | none =>
    let (a, h1) := bigNewInt 0 h
    (some a, h1)

/-- Go `func (fDecRO *FixedDecimalReadOnly) GetBigIntPrecision() (integer, precision *big.Int)`.
The two inner calls are made on the receiver itself while its lock is held. -/
def GetBigIntPrecision (fDecRO : FixedDecimalReadOnly) (h : Heap) :
    Outcome (Option Addr × Option Addr) :=
  match fDecRO.acquire with
  | none => .blocked
  | some s =>
    match s.GetInteger h with
    | .blocked => .blocked
    | .fatal => .fatal
    | .returned integer s1 h1 =>
      let (integer, h2) := orNewZero integer h1
      match s1.GetPrecisionBigInt h2 with
      | .blocked => .blocked
      | .fatal => .fatal
      | .returned precision s2 h3 =>
        let (precision, h4) := orNewZero precision h3
        release (integer, precision) s2 h4

/-- Go `new(FixedDecimalReadOnly)` and `FixedDecimalReadOnly{}`: the zero value. -/
def zeroValue : FixedDecimalReadOnly :=
  { fixedDecimal := { magnitude := none, scale := 0 }, lock := none }

/-- Go `func (fDecRO *FixedDecimalReadOnly) GetFixedDecimal() BigIntFixedDecimal`, with
the `CopyOut` of the wrapped value it delegates to as a parameter. -/
def GetFixedDecimalBy (d : Delegates) (fDecRO : FixedDecimalReadOnly) (h : Heap) :
    Outcome BigIntFixedDecimal :=
  match fDecRO.acquire with
  | none => .blocked
  | some s =>
    let (_, fd1, h1) := s.fixedDecimal.IsValid h
    match d.CopyOut fd1 h1 with
    | none => .fatal
    | some (r, fd2, h2) => release r { s with fixedDecimal := fd2 } h2

/-- Go `func (fDecRO *FixedDecimalReadOnly) GetFixedDecimal() BigIntFixedDecimal`,
delegating to the `CopyOut` modelled from the spec. -/
def GetFixedDecimal (fDecRO : FixedDecimalReadOnly) (h : Heap) : Outcome BigIntFixedDecimal :=
  GetFixedDecimalBy Delegates.modelled fDecRO h

/-- Go `func (fDecRO *FixedDecimalReadOnly) GetNumStr() string`, with the accessor of the
wrapped value it delegates to as a parameter. -/
def GetNumStrBy (d : Delegates) (fDecRO : FixedDecimalReadOnly) (h : Heap) : Outcome String :=
  match fDecRO.acquire with
  | none => .blocked
  | some s =>
    let (_, fd1, h1) := s.fixedDecimal.IsValid h
    match d.GetNumStr fd1 h1 with
    | none => .fatal
    | some (r, fd2, h2) => release r { s with fixedDecimal := fd2 } h2

/-- Go `func (fDecRO *FixedDecimalReadOnly) GetNumStr() string`, delegating to the accessor
modelled from the spec. -/
def GetNumStr (fDecRO : FixedDecimalReadOnly) (h : Heap) : Outcome String :=
  GetNumStrBy Delegates.modelled fDecRO h

/-- Go `func (fDecRO *FixedDecimalReadOnly) GetPrecision() uint`, with the accessor of the
wrapped value it delegates to as a parameter. -/
def GetPrecisionBy (d : Delegates) (fDecRO : FixedDecimalReadOnly) (h : Heap) : Outcome Nat :=
  match fDecRO.acquire with
  | none => .blocked
  | some s =>
    let (_, fd1, h1) := s.fixedDecimal.IsValid h
    match d.GetPrecision fd1 h1 with
    | none => .fatal
    | some (r, fd2, h2) => release r { s with fixedDecimal := fd2 } h2

/-- Go `func (fDecRO *FixedDecimalReadOnly) GetPrecision() uint`, delegating to the accessor
modelled from the spec. -/
def GetPrecision (fDecRO : FixedDecimalReadOnly) (h : Heap) : Outcome Nat :=
  GetPrecisionBy Delegates.modelled fDecRO h

/-- Go `func (fDecRO *FixedDecimalReadOnly) IsValid() bool`. -/
def IsValid (fDecRO : FixedDecimalReadOnly) (h : Heap) : Outcome Bool :=
  match fDecRO.acquire with
  | none => .blocked
  | some s =>
    let (r, fd1, h1) := s.fixedDecimal.IsValid h
    release r { s with fixedDecimal := fd1 } h1

/-- Go `func (fDecRO *FixedDecimalReadOnly) IsZero() bool`. -/
def IsZero (fDecRO : FixedDecimalReadOnly) (h : Heap) : Outcome Bool :=
  match fDecRO.acquire with
  | none => .blocked
  | some s =>
    let (r, fd1, h1) := s.fixedDecimal.IsZero h
    release r { s with fixedDecimal := fd1 } h1

/-- Go `func (fDecRO *FixedDecimalReadOnly) NewZero(precision uint) FixedDecimalReadOnly`. -/
def NewZero (fDecRO : FixedDecimalReadOnly) (precision : Nat) (h : Heap) :
    Outcome FixedDecimalReadOnly :=
  match fDecRO.acquire with
  | none => .blocked
  | some s =>
    let (fd, h1) := BigIntFixedDecimal.NewZero precision h
    let f2 : FixedDecimalReadOnly := { fixedDecimal := fd, lock := none }
    release f2 s h1

/-- Go `func (fDecRO *FixedDecimalReadOnly) NewInt(intValue int, precision uint)`. -/
def NewInt (fDecRO : FixedDecimalReadOnly) (intValue : Int) (precision : Nat) (h : Heap) :
    Outcome FixedDecimalReadOnly :=
  match fDecRO.acquire with
  | none => .blocked
  | some s =>
    let (fd, h1) := BigIntFixedDecimal.NewInt intValue precision h
    let f2 : FixedDecimalReadOnly := { fixedDecimal := fd, lock := none }
    release f2 s h1

/-- Go `func (fDecRO *FixedDecimalReadOnly) NewInt32(int32Value int32, precision uint)`. -/
def NewInt32 (fDecRO : FixedDecimalReadOnly) (int32Value : Int) (precision : Nat) (h : Heap) :
    Outcome FixedDecimalReadOnly :=
  match fDecRO.acquire with
  | none => .blocked
  | some s =>
    let (fd, h1) := BigIntFixedDecimal.NewInt32 int32Value precision h
    let f2 : FixedDecimalReadOnly := { fixedDecimal := fd, lock := none }
    release f2 s h1

/-- Go `func (fDecRO *FixedDecimalReadOnly) NewInt64(int64Value int64, precision uint)`. -/
def NewInt64 (fDecRO : FixedDecimalReadOnly) (int64Value : Int) (precision : Nat) (h : Heap) :
    Outcome FixedDecimalReadOnly :=
  match fDecRO.acquire with
  | none => .blocked
  | some s =>
    let (fd, h1) := BigIntFixedDecimal.NewInt64 int64Value precision h
    let f2 : FixedDecimalReadOnly := { fixedDecimal := fd, lock := none }
    release f2 s h1

/-- Go `func (fDecRO *FixedDecimalReadOnly) NewUInt(uintValue, precision uint)`. -/
def NewUInt (fDecRO : FixedDecimalReadOnly) (uintValue : Nat) (precision : Nat) (h : Heap) :
    Outcome FixedDecimalReadOnly :=
  match fDecRO.acquire with
  | none => .blocked
  | some s =>
    let (fd, h1) := BigIntFixedDecimal.NewUInt uintValue precision h
    let f2 : FixedDecimalReadOnly := { fixedDecimal := fd, lock := none }
    release f2 s h1

/-- Go `func (fDecRO *FixedDecimalReadOnly) NewUInt32(uint32Value uint32, precision uint)`. -/
def NewUInt32 (fDecRO : FixedDecimalReadOnly) (uint32Value : Nat) (precision : Nat) (h : Heap) :
    Outcome FixedDecimalReadOnly :=
  match fDecRO.acquire with
  | none => .blocked
  | some s =>
    let (fd, h1) := BigIntFixedDecimal.NewUInt32 uint32Value precision h
    let f2 : FixedDecimalReadOnly := { fixedDecimal := fd, lock := none }
    release f2 s h1

/-- Go `func (fDecRO *FixedDecimalReadOnly) NewUInt64(uint64Value uint64, precision uint)`. -/
def NewUInt64 (fDecRO : FixedDecimalReadOnly) (uint64Value : Nat) (precision : Nat) (h : Heap) :
    Outcome FixedDecimalReadOnly :=
  match fDecRO.acquire with
  | none => .blocked
  | some s =>
    let (fd, h1) := BigIntFixedDecimal.NewUInt64 uint64Value precision h
    let f2 : FixedDecimalReadOnly := { fixedDecimal := fd, lock := none }
    release f2 s h1

/-- Go `fmt.Errorf(format)` without arguments, for a format that holds no verb: the text of
the error is the format itself. -/
def Errorf (format : String) : String := format

/-- Go `func (fDecRO *FixedDecimalReadOnly) NewNumStr(numStr string) (FixedDecimalReadOnly, error)`.
The error is `none` for `nil`, else its text. On the failure path the value of `err` is not
used. -/
def NewNumStr (parse : BigIntFixedDecimal.NumStrGrammar) (fDecRO : FixedDecimalReadOnly)
    (numStr : String) (h : Heap) : Outcome (FixedDecimalReadOnly × Option String) :=
  match fDecRO.acquire with
  | none => .blocked
  | some s =>
    let ePrefix := "FixedDecimalReadOnly.NewNumStr() "
    let (fd0, h1) := BigIntFixedDecimal.NewZero 0 h
    let fo2 : FixedDecimalReadOnly := { fixedDecimal := fd0, lock := none }
    let (err, fd1, h2) := fo2.fixedDecimal.SetNumStr parse numStr h1
    let fo2 : FixedDecimalReadOnly := { fo2 with fixedDecimal := fd1 }
    match err with
    | some _ =>
      match zeroValue.NewZero 0 h2 with
      | .blocked => .blocked
      | .fatal => .fatal
      | .returned z _ h3 => release (z, some (Errorf ePrefix)) s h3
    | none => release (fo2, none) s h2

/-- Go `func (fDecRO *FixedDecimalReadOnly) NewFixedDecimal(fixedDecimal BigIntFixedDecimal)`.
The argument is passed by value, so `IsValid` heals the local copy only. -/
def NewFixedDecimal (fDecRO : FixedDecimalReadOnly) (fixedDecimal : BigIntFixedDecimal)
    (h : Heap) : Outcome FixedDecimalReadOnly :=
  match fDecRO.acquire with
  | none => .blocked
  | some s =>
    let (_, fixedDecimal, h1) := fixedDecimal.IsValid h
    match zeroValue.NewZero 0 h1 with
    | .blocked => .blocked
    | .fatal => .fatal
    | .returned f2 _ h2 =>
      let (fd, h3) := f2.fixedDecimal.CopyIn fixedDecimal h2
      release { f2 with fixedDecimal := fd } s h3

end FixedDecimalReadOnly

/-- Forgets the value a call returned, keeping the state it left. -/
def Outcome.state {α : Type} : Outcome α → Outcome Unit
  | .returned _ r h => .returned () r h
  | .blocked => .blocked
  | .fatal => .fatal

/-- The methods of `*FixedDecimalReadOnly`, with their arguments. -/
inductive Operation where
  | GetFixedDecimal
  | GetInteger
  | GetNumStr
  | GetPrecision
  | GetPrecisionBigInt
  | GetBigIntPrecision
  | IsValid
  | IsZero
  | NewNumStr (numStr : String)
  | NewFixedDecimal (fixedDecimal : BigIntFixedDecimal)
  | NewInt (intValue : Int) (precision : Nat)
  | NewInt32 (int32Value : Int) (precision : Nat)
  | NewInt64 (int64Value : Int) (precision : Nat)
  | NewUInt (uintValue : Nat) (precision : Nat)
  | NewUInt32 (uint32Value : Nat) (precision : Nat)
  | NewUInt64 (uint64Value : Nat) (precision : Nat)
  | NewZero (precision : Nat)
deriving DecidableEq, Repr

/-- Calls the method `op` on the receiver `fDecRO` and keeps the state the call leaves. -/
def Operation.call (parse : BigIntFixedDecimal.NumStrGrammar) (op : Operation)
    (fDecRO : FixedDecimalReadOnly) (h : Heap) : Outcome Unit :=
  match op with
  | .GetFixedDecimal => (fDecRO.GetFixedDecimal h).state
  | .GetInteger => (fDecRO.GetInteger h).state
  | .GetNumStr => (fDecRO.GetNumStr h).state
  | .GetPrecision => (fDecRO.GetPrecision h).state
  | .GetPrecisionBigInt => (fDecRO.GetPrecisionBigInt h).state
  | .GetBigIntPrecision => (fDecRO.GetBigIntPrecision h).state
  | .IsValid => (fDecRO.IsValid h).state
  | .IsZero => (fDecRO.IsZero h).state
  | .NewNumStr numStr => (fDecRO.NewNumStr parse numStr h).state
  | .NewFixedDecimal fixedDecimal => (fDecRO.NewFixedDecimal fixedDecimal h).state
  | .NewInt v p => (fDecRO.NewInt v p h).state
  | .NewInt32 v p => (fDecRO.NewInt32 v p h).state
  | .NewInt64 v p => (fDecRO.NewInt64 v p h).state
  | .NewUInt v p => (fDecRO.NewUInt v p h).state
  | .NewUInt32 v p => (fDecRO.NewUInt32 v p h).state
  | .NewUInt64 v p => (fDecRO.NewUInt64 v p h).state
  | .NewZero p => (fDecRO.NewZero p h).state

/-- The view's `IsValid` called `n` times in a row: the results in call order and the state
left by the last call; `none` if a call does not return. -/
def isValidTimes : Nat → FixedDecimalReadOnly → Heap →
    Option (List Bool × FixedDecimalReadOnly × Heap)
  | 0, fDecRO, h => some ([], fDecRO, h)
  | n + 1, fDecRO, h =>
    match fDecRO.IsValid h with
    | .returned b s h1 =>
      match isValidTimes n s h1 with
      | some (bs, s1, h2) => some (b :: bs, s1, h2)
      | none => none
    | _ => none

/-! ## `BigIntNum` (declared outside the two source files) -/

/-- Modelled from the spec: the type `BigIntNum` (spec name BigIntegerValue), whose
declaration is missing: the same shape as `BigIntFixedDecimal`, an unbounded integer held
through a `*big.Int` and the precision reported by `GetPrecisionUint`. -/
structure BigIntNum where
  integerValue : Option Addr
  precision : Nat
deriving DecidableEq, Repr

namespace BigIntNum

/-- Modelled from the spec: self-healing of an unconstructed `BigIntNum` into canonical
zero, as for `BigIntFixedDecimal.IsValid`. -/
def IsValid (b : BigIntNum) (h : Heap) : Bool × BigIntNum × Heap :=
  match b.integerValue with
  | some _ => (true, b, h)
  | none =>
    let (a, h1) := bigNewInt 0 h
    (false, { integerValue := some a, precision := 0 }, h1)

/-- The pair (integer value, precision) an instance stands for; an unconstructed instance
stands for canonical zero. -/
def value (b : BigIntNum) (h : Heap) : Int × Nat :=
  match b.integerValue with
  | some a => (bigRead h a, b.precision)
  | none => (0, 0)

/-- Modelled from the spec: the missing method `BigIntNum.GetIntegerValue`: the integer
value as an independent copy. -/
def GetIntegerValue (b : BigIntNum) (h : Heap) : Option Addr × BigIntNum × Heap :=
  let (_, b1, h1) := b.IsValid h
  let (a, h2) := bigNewInt (b1.value h1).1 h1
  (some a, b1, h2)

/-- Modelled from the spec: the missing method `BigIntNum.GetPrecisionUint`. -/
def GetPrecisionUint (b : BigIntNum) (h : Heap) : Nat × BigIntNum × Heap :=
  let (_, b1, h1) := b.IsValid h
  (b1.precision, b1, h1)

/-- Modelled from the spec: the missing method `BigIntNum.CopyOut`: an independent clone. -/
def CopyOut (b : BigIntNum) (h : Heap) : BigIntNum × BigIntNum × Heap :=
  let (_, b1, h1) := b.IsValid h
  let (a, h2) := bigNewInt (b1.value h1).1 h1
  ({ integerValue := some a, precision := b1.precision }, b1, h2)

/-- Modelled from the spec: the missing method `BigIntNum.CopyIn`: replaces the entire state
of the receiver with a deep copy of the state of `other`. -/
def CopyIn (_b other : BigIntNum) (h : Heap) : BigIntNum × Heap :=
  let (a, h1) := bigNewInt (other.value h).1 h
  ({ integerValue := some a, precision := (other.value h).2 }, h1)

/-- Modelled from the spec: the missing factory `BigIntNum.NewZero`. -/
def NewZero (precision : Nat) (h : Heap) : BigIntNum × Heap :=
  let (a, h1) := bigNewInt 0 h
  ({ integerValue := some a, precision := precision }, h1)

/-- Modelled from the spec: the missing method `BigIntNum.GetBigIntFixedDecimal`: the
conversion to the scaled type at the native precision, as a deep copy. -/
def GetBigIntFixedDecimal (b : BigIntNum) (h : Heap) : BigIntFixedDecimal × BigIntNum × Heap :=
  let (_, b1, h1) := b.IsValid h
  let (a, h2) := bigNewInt (b1.value h1).1 h1
  ({ magnitude := some a, scale := b1.precision }, b1, h2)

/-- Modelled from the spec: the missing factory `BigIntNum.NewBigIntFixedDecimal`: a
`BigIntNum` holding a deep copy of the fixed decimal. -/
def NewBigIntFixedDecimal (fixedDec : BigIntFixedDecimal) (h : Heap) : BigIntNum × Heap :=
  let (a, h1) := bigNewInt (fixedDec.value h).1 h
  ({ integerValue := some a, precision := (fixedDec.value h).2 }, h1)

/-- Modelled from the spec: the missing factory `BigIntNum.NewNumStr`, with the grammar as
the parameter `parse`. On failure the zero value is returned next to the error text. -/
def NewNumStr (parse : BigIntFixedDecimal.NumStrGrammar) (numStr : String) (h : Heap) :
    (BigIntNum × Option String) × Heap :=
  match parse numStr with
  | .error e => (({ integerValue := none, precision := 0 }, some e), h)
  | .ok (m, s) =>
    let (a, h1) := bigNewInt m h
    (({ integerValue := some a, precision := s }, none), h1)

end BigIntNum

/-! ## `BigIntNumReadOnly` -/

/-- Go `type BigIntNumReadOnly struct`. -/
structure BigIntNumReadOnly where
  bigIntNum : BigIntNum
deriving DecidableEq, Repr

namespace BigIntNumReadOnly

/-- Go `func (birO *BigIntNumReadOnly) GetIntegerValue() *big.Int`. -/
def GetIntegerValue (birO : BigIntNumReadOnly) (h : Heap) :
    Option Addr × BigIntNumReadOnly × Heap :=
  let (r, b, h1) := birO.bigIntNum.GetIntegerValue h
  (r, { birO with bigIntNum := b }, h1)

/-- Go `func (birO *BigIntNumReadOnly) GetPrecisionUint() uint`. -/
def GetPrecisionUint (birO : BigIntNumReadOnly) (h : Heap) : Nat × BigIntNumReadOnly × Heap :=
  let (r, b, h1) := birO.bigIntNum.GetPrecisionUint h
  (r, { birO with bigIntNum := b }, h1)

/-- Go `func (birO *BigIntNumReadOnly) GetBigIntNum() BigIntNum`. -/
def GetBigIntNum (birO : BigIntNumReadOnly) (h : Heap) : BigIntNum × BigIntNumReadOnly × Heap :=
  let (r, b, h1) := birO.bigIntNum.CopyOut h
  (r, { birO with bigIntNum := b }, h1)

/-- Go `func (birO *BigIntNumReadOnly) GetFixedDecimal() BigIntFixedDecimal`. -/
def GetFixedDecimal (birO : BigIntNumReadOnly) (h : Heap) :
    BigIntFixedDecimal × BigIntNumReadOnly × Heap :=
  let (r, b, h1) := birO.bigIntNum.GetBigIntFixedDecimal h
  (r, { birO with bigIntNum := b }, h1)

/-- Go `func (birO *BigIntNumReadOnly) NewBigIntNum(biNum BigIntNum) BigIntNumReadOnly`. -/
def NewBigIntNum (birO : BigIntNumReadOnly) (biNum : BigIntNum) (h : Heap) :
    BigIntNumReadOnly × BigIntNumReadOnly × Heap :=
  let (b0, h1) := BigIntNum.NewZero 0 h
  let birO2 : BigIntNumReadOnly := { bigIntNum := b0 }
  let (b1, h2) := birO2.bigIntNum.CopyIn biNum h1
  ({ birO2 with bigIntNum := b1 }, birO, h2)

/-- Go `func (birO *BigIntNumReadOnly) NewFixedDecimal(fixedDec BigIntFixedDecimal)`. -/
def NewFixedDecimal (birO : BigIntNumReadOnly) (fixedDec : BigIntFixedDecimal) (h : Heap) :
    BigIntNumReadOnly × BigIntNumReadOnly × Heap :=
  let (b, h1) := BigIntNum.NewBigIntFixedDecimal fixedDec h
  ({ bigIntNum := b }, birO, h1)

/-- Go `func (birO *BigIntNumReadOnly) NewNumStr(numStr string) (BigIntNumReadOnly, error)`. -/
def NewNumStr (parse : BigIntFixedDecimal.NumStrGrammar) (birO : BigIntNumReadOnly)
    (numStr : String) (h : Heap) : (BigIntNumReadOnly × Option String) × BigIntNumReadOnly × Heap :=
  let ePrefix := "BigIntNumReadOnly.NewNumStr() "
  let ((readOnly, err), h1) := BigIntNum.NewNumStr parse numStr h
  match err with
  | some e =>
    (({ bigIntNum := { integerValue := none, precision := 0 } },
      some ( ePrefix ++ "Error returned by BigIntNum\x7b\x7d.NewNumStr(numStr). " ++
        "Error=\x27" ++ e ++ "\x27 ")), birO, h1)
  | none =>
    let (b0, h2) := BigIntNum.NewZero 0 h1
    let biRo : BigIntNumReadOnly := { bigIntNum := b0 }
    let (b1, h3) := biRo.bigIntNum.CopyIn readOnly h2
    (({ biRo with bigIntNum := b1 }, none), birO, h3)

end BigIntNumReadOnly

/-! ## Two concurrent readers of one view

The entry of every method of `*FixedDecimalReadOnly` is the same four statements. Here one
call of `GetInteger` is split into its statements, and two readers of one view take turns,
one statement at a time, in the order a schedule gives. Mutexes are objects with an
identity: `lock` is the address of the mutex the view points to. -/

/-- Program points of one call of `GetInteger`, one per statement. -/
inductive Pc where
  /-- Before `if fDecRO.lock == nil`. -/
  | nilTest
  /-- Before `fDecRO.lock = new(sync.Mutex)`. -/
  | assign
  /-- Before `fDecRO.lock.Lock()`. -/
  | lock
  /-- Before `defer fDecRO.lock.Unlock()`; Go reads `fDecRO.lock` when it runs `defer`. -/
  | deferUnlock
  /-- Before the two `IsValid` calls and the delegation to the wrapped value. -/
  | body
  /-- Before the deferred `Unlock()` that runs at the return. -/
  | unlock
  /-- The call has returned. -/
  | done
deriving DecidableEq, Repr

/-- One reader: where it is in its call, the mutex its `defer` captured, the pointer it is
going to return. -/
structure Reader where
  pc : Pc
  deferred : Option Nat
  result : Option (Option Addr)
deriving DecidableEq, Repr

/-- The view shared by the readers: the wrapped value, the `lock` pointer (`none` for nil),
every `sync.Mutex` allocated so far (`true` for held), the store of `big.Int` objects, and
whether the runtime has stopped with a fatal error. -/
structure SharedView where
  fixedDecimal : BigIntFixedDecimal
  lock : Option Nat
  mutexes : List Bool
  heap : Heap
  fatal : Bool
deriving DecidableEq, Repr

/-- The reader holds a mutex: it is after its `Lock()` and before its `Unlock()`. -/
def Reader.inCriticalSection (r : Reader) : Bool :=
  r.pc = .deferUnlock || r.pc = .body || r.pc = .unlock

/-- One statement of `GetInteger` executed by the reader `r`. A reader whose `Lock()` finds
the mutex held stays where it is. -/
def Reader.step (r : Reader) (v : SharedView) : Reader × SharedView :=
  match r.pc with
  | .nilTest => ({ r with pc := if v.lock = none then .assign else .lock }, v)
  | .assign =>
    ({ r with pc := .lock },
      { v with lock := some v.mutexes.length, mutexes := v.mutexes ++ [false] })
  | .lock =>
    match v.lock with
    | none => (r, { v with fatal := true })
    | some m =>
      if v.mutexes.getD m true then (r, v)
      else ({ r with pc := .deferUnlock }, { v with mutexes := v.mutexes.set m true })
  | .deferUnlock => ({ r with pc := .body, deferred := v.lock }, v)
  | .body =>
    let (_, fd1, h1) := v.fixedDecimal.IsValid v.heap
    let (_, fd2, h2) := fd1.IsValid h1
    let (p, fd3, h3) := fd2.GetInteger h2
    ({ r with pc := .unlock, result := some p }, { v with fixedDecimal := fd3, heap := h3 })
  | .unlock =>
    match r.deferred with
    | none => (r, { v with fatal := true })
    | some m =>
      if v.mutexes.getD m false then
        ({ r with pc := .done }, { v with mutexes := v.mutexes.set m false })
      else (r, { v with fatal := true })
  | .done => (r, v)

/-- Two readers and the view they share. -/
structure TwoReaders where
  view : SharedView
  r0 : Reader
  r1 : Reader
deriving DecidableEq, Repr

/-- The reader `i` executes its next statement; nothing runs after a fatal error. -/
def TwoReaders.step (w : TwoReaders) (i : Fin 2) : TwoReaders :=
  if w.view.fatal then w
  else if i = 0 then
    { w with view := (w.r0.step w.view).2, r0 := (w.r0.step w.view).1 }
  else
    { w with view := (w.r1.step w.view).2, r1 := (w.r1.step w.view).1 }

/-- Runs the readers in the order of the schedule. -/
def TwoReaders.run (w : TwoReaders) (schedule : List (Fin 2)) : TwoReaders :=
  schedule.foldl TwoReaders.step w

/-- Both readers about to call `GetInteger` on a view with the given wrapped value, lock
pointer and mutexes, in the empty store. -/
def TwoReaders.start (fd : BigIntFixedDecimal) (lock : Option Nat) (mutexes : List Bool) :
    TwoReaders :=
  { view := { fixedDecimal := fd, lock := lock, mutexes := mutexes, heap := [], fatal := false }
    r0 := { pc := .nilTest, deferred := none, result := none }
    r1 := { pc := .nilTest, deferred := none, result := none } }

/-- Both readers on the zero-value view: wrapped value unconstructed, lock nil. -/
def TwoReaders.zeroValue : TwoReaders :=
  TwoReaders.start ⟨none, 0⟩ none []

/-- What holds in every state reached when the lock of the view exists before the first
call: no fatal error, the one mutex is held exactly when a reader is in the critical
section, and the two readers are never there together. -/
def TwoReaders.Serialised (w : TwoReaders) : Prop :=
  w.view.fatal = false ∧ w.view.lock = some 0 ∧
  w.view.mutexes = [w.r0.inCriticalSection || w.r1.inCriticalSection] ∧
  (w.r0.inCriticalSection && w.r1.inCriticalSection) = false ∧
  w.r0.pc ≠ .assign ∧ w.r1.pc ≠ .assign ∧
  ((w.r0.pc = .body ∨ w.r0.pc = .unlock) → w.r0.deferred = some 0) ∧
  ((w.r1.pc = .body ∨ w.r1.pc = .unlock) → w.r1.deferred = some 0)

/-! ## Observations -/

/-- What a call that returned a `*big.Int` reports: the integer it points to. -/
def Outcome.integer : Outcome (Option Addr) → Option Int
  | .returned (some a) _ h => some (bigRead h a)
  | _ => none

/-- The value a call returned, if it returned. -/
def Outcome.result {α : Type} : Outcome α → Option α
  | .returned v _ _ => some v
  | _ => none

/-- The call `o` of a view factory returned a view with a nil lock that wraps exactly
`built`, the value and store produced by the `BigIntFixedDecimal` factory, and that view
reports the integer `v` and the precision `p`. -/
def Wraps (o : Outcome FixedDecimalReadOnly) (built : BigIntFixedDecimal × Heap)
    (v : Int) (p : Nat) : Prop :=
  ∃ view recv1, o = .returned view recv1 built.2 ∧
    view.fixedDecimal = built.1 ∧ view.lock = none ∧
    (view.GetInteger built.2).integer = some v ∧
    (view.GetPrecision built.2).result = some p

/-- The wrapped value of the view is constructed: its magnitude points to an allocated
`big.Int`. -/
def FixedDecimalReadOnly.Constructed (view : FixedDecimalReadOnly) (h : Heap) : Prop :=
  ∃ a, view.fixedDecimal.magnitude = some a ∧ a < h.length

/-- The factory call `o` returned a constructed view with a nil lock. -/
def BuildsConstructed (o : Outcome FixedDecimalReadOnly) : Prop :=
  ∃ view recv1 h1, o = .returned view recv1 h1 ∧ view.Constructed h1 ∧ view.lock = none

/-- What a call that returned a `BigIntFixedDecimal` reports: its magnitude and scale. -/
def Outcome.decimal : Outcome BigIntFixedDecimal → Option (Int × Nat)
  | .returned fd _ h => some (fd.value h)
  | _ => none

/-- The integer value and precision of the `BigIntNum` returned by a `BigIntNumReadOnly`
accessor, read in the store the accessor left. -/
def reportedNum {ρ : Type} (r : BigIntNum × ρ × Heap) : Int × Nat :=
  r.1.value r.2.2

/-- The integer behind the `*big.Int` returned by a `BigIntNum` or `BigIntNumReadOnly`
accessor, read in the store the accessor left. -/
def reportedInteger {ρ : Type} (r : Option Addr × ρ × Heap) : Option Int :=
  r.1.map (bigRead r.2.2)

/-- Outcome of a getter that, holding the lock, received `o` from the accessor of the
wrapped value: a failure is passed on, a result is returned with the lock released. -/
def delegated {α : Type} (o : Option (α × BigIntFixedDecimal × Heap)) : Outcome α :=
  match o with
  | none => .fatal
  | some (r, fd, h) => .returned r ⟨fd, some ⟨false⟩⟩ h

/-! ## Theorems -/

/-! ### Store -/

@[simp] theorem bigRead_cons_zero (l : Heap) (x : Int) : bigRead (x :: l) 0 = x := by
  simp [bigRead]

@[simp] theorem bigRead_cons_succ (l : Heap) (x : Int) (k : Nat) :
    bigRead (x :: l) (k + 1) = bigRead l k := by
  simp [bigRead]

@[simp] theorem bigRead_append_right (h l : Heap) (k : Nat) :
    bigRead (h ++ l) (h.length + k) = bigRead l k := by
  simp [bigRead, List.getD_eq_getElem?_getD, List.getElem?_append_right]

@[simp] theorem bigRead_append_length (h l : Heap) :
    bigRead (h ++ l) h.length = bigRead l 0 := by
  simpa using bigRead_append_right h l 0

theorem bigRead_append_old (h l : Heap) (a : Addr) (ha : a < h.length) :
    bigRead (h ++ l) a = bigRead h a := by
  simp [bigRead, List.getD_eq_getElem?_getD, List.getElem?_append_left ha]

theorem bigRead_bigSet_ne (h : Heap) (a b : Addr) (x : Int) (hab : a ≠ b) :
    bigRead (bigSet h a x) b = bigRead h b := by
  simp [bigRead, bigSet, List.getD_eq_getElem?_getD, List.getElem?_set_ne hab]

/-! ### Lock -/

namespace FixedDecimalReadOnly

theorem acquire_of_not_held (fDecRO : FixedDecimalReadOnly) (hl : fDecRO.lock ≠ some ⟨true⟩) :
    fDecRO.acquire = some { fDecRO with lock := some ⟨true⟩ } := by
  obtain ⟨fd, l⟩ := fDecRO
  rcases l with _ | ⟨_ | _⟩ <;> simp_all [acquire, Mutex.Lock]

@[simp] theorem release_held {α : Type} (v : α) (fd : BigIntFixedDecimal) (h : Heap) :
    release v ⟨fd, some ⟨true⟩⟩ h = .returned v ⟨fd, some ⟨false⟩⟩ h := by
  simp [release, Mutex.Unlock]

@[simp] theorem zeroValue_acquire :
    zeroValue.acquire = some ⟨⟨none, 0⟩, some ⟨true⟩⟩ := by
  simp [zeroValue, acquire, Mutex.Lock]

@[simp] theorem acquire_nil_lock (fd : BigIntFixedDecimal) :
    acquire ⟨fd, none⟩ = some ⟨fd, some ⟨true⟩⟩ := by
  simp [acquire, Mutex.Lock]

end FixedDecimalReadOnly

/-! ### Factories from native integers -/

theorem wraps_fromInteger (o : Outcome FixedDecimalReadOnly) (recv : FixedDecimalReadOnly)
    (v : Int) (p : Nat) (h : Heap)
    (ho : o = .returned ⟨⟨some h.length, p⟩, none⟩ ⟨recv.fixedDecimal, some ⟨false⟩⟩ (h ++ [v])) :
    Wraps o (BigIntFixedDecimal.FromInteger v p h) v p := by
  refine ⟨⟨⟨some h.length, p⟩, none⟩, ⟨recv.fixedDecimal, some ⟨false⟩⟩, ?_, rfl, rfl, ?_, ?_⟩
  · simpa [BigIntFixedDecimal.FromInteger, bigNewInt] using ho
  · simp [BigIntFixedDecimal.FromInteger, bigNewInt, FixedDecimalReadOnly.GetInteger, FixedDecimalReadOnly.GetIntegerBy, Delegates.modelled,
      BigIntFixedDecimal.IsValid, BigIntFixedDecimal.GetInteger, BigIntFixedDecimal.value,
      Outcome.integer]
  · simp [BigIntFixedDecimal.FromInteger, bigNewInt, FixedDecimalReadOnly.GetPrecision, FixedDecimalReadOnly.GetPrecisionBy, Delegates.modelled,
      BigIntFixedDecimal.IsValid, BigIntFixedDecimal.GetPrecision, Outcome.result]

namespace FixedDecimalReadOnly

/-- C5: called on a receiver whose lock is absent or free, each native-integer factory of the
view returns (it has no error result) a view that wraps exactly the value built by the
`BigIntFixedDecimal` factory of the same name; that view reports `GetInteger() = v` and
`GetPrecision() = p`. `NewZero(p)` returns a view reporting integer 0, precision `p` and
`IsZero() = true`. Go's native ranges are sub-ranges of the `Int` and `Nat` quantified here. -/
theorem factories_wrap_value (recv : FixedDecimalReadOnly) (h : Heap) (v : Int) (u p : Nat)
    (hl : recv.lock ≠ some ⟨true⟩) :
    Wraps (recv.NewInt v p h) (BigIntFixedDecimal.NewInt v p h) v p ∧
    Wraps (recv.NewInt32 v p h) (BigIntFixedDecimal.NewInt32 v p h) v p ∧
    Wraps (recv.NewInt64 v p h) (BigIntFixedDecimal.NewInt64 v p h) v p ∧
    Wraps (recv.NewUInt u p h) (BigIntFixedDecimal.NewUInt u p h) u p ∧
    Wraps (recv.NewUInt32 u p h) (BigIntFixedDecimal.NewUInt32 u p h) u p ∧
    Wraps (recv.NewUInt64 u p h) (BigIntFixedDecimal.NewUInt64 u p h) u p ∧
    Wraps (recv.NewZero p h) (BigIntFixedDecimal.NewZero p h) 0 p ∧
    (∀ view, (recv.NewZero p h).result = some view →
      ((view.IsZero (BigIntFixedDecimal.NewZero p h).2).result = some true)) := by
  have ha := acquire_of_not_held recv hl
  refine ⟨?_, ?_, ?_, ?_, ?_, ?_, ?_, ?_⟩
  · exact wraps_fromInteger _ recv v p h (by
      simp [NewInt, ha, BigIntFixedDecimal.NewInt, BigIntFixedDecimal.FromInteger, bigNewInt])
  · exact wraps_fromInteger _ recv v p h (by
      simp [NewInt32, ha, BigIntFixedDecimal.NewInt32, BigIntFixedDecimal.FromInteger, bigNewInt])
  · exact wraps_fromInteger _ recv v p h (by
      simp [NewInt64, ha, BigIntFixedDecimal.NewInt64, BigIntFixedDecimal.FromInteger, bigNewInt])
  · exact wraps_fromInteger _ recv u p h (by
      simp [NewUInt, ha, BigIntFixedDecimal.NewUInt, BigIntFixedDecimal.FromInteger, bigNewInt])
  · exact wraps_fromInteger _ recv u p h (by
      simp [NewUInt32, ha, BigIntFixedDecimal.NewUInt32, BigIntFixedDecimal.FromInteger, bigNewInt])
  · exact wraps_fromInteger _ recv u p h (by
      simp [NewUInt64, ha, BigIntFixedDecimal.NewUInt64, BigIntFixedDecimal.FromInteger, bigNewInt])
  · exact wraps_fromInteger _ recv 0 p h (by
      simp [NewZero, ha, BigIntFixedDecimal.NewZero, BigIntFixedDecimal.FromInteger, bigNewInt])
  · intro view hv
    simp [NewZero, ha, BigIntFixedDecimal.NewZero, BigIntFixedDecimal.FromInteger, bigNewInt,
      Outcome.result] at hv
    subst hv
    simp [IsZero, BigIntFixedDecimal.NewZero, BigIntFixedDecimal.FromInteger, bigNewInt,
      BigIntFixedDecimal.IsZero, BigIntFixedDecimal.IsValid, BigIntFixedDecimal.value,
      Outcome.result]

/-- C5 at a concrete input: the factories called on the zero value with `v = -7`, `u = 7`,
`p = 2` in the empty store. -/
theorem factories_wrap_value_witness :
    zeroValue.lock ≠ some ⟨true⟩ ∧
    Wraps (zeroValue.NewInt32 (-7) 2 []) (BigIntFixedDecimal.NewInt32 (-7) 2 []) (-7) 2 ∧
    Wraps (zeroValue.NewUInt64 7 2 []) (BigIntFixedDecimal.NewUInt64 7 2 []) (7 : Nat) 2 :=
  ⟨by decide, (factories_wrap_value zeroValue [] (-7) 7 2 (by decide)).2.1,
    (factories_wrap_value zeroValue [] (-7) 7 2 (by decide)).2.2.2.2.2.1⟩

end FixedDecimalReadOnly

namespace FixedDecimalReadOnly

theorem acquire_lock_held (fDecRO s : FixedDecimalReadOnly) (hs : fDecRO.acquire = some s) :
    s.lock = some ⟨true⟩ ∧ s.fixedDecimal = fDecRO.fixedDecimal := by
  obtain ⟨fd, l⟩ := fDecRO
  rcases l with _ | ⟨_ | _⟩ <;> simp [acquire, Mutex.Lock] at hs <;> subst hs <;> simp

theorem acquire_of_held (s : FixedDecimalReadOnly) (hs : s.lock = some ⟨true⟩) :
    s.acquire = none := by
  simp [acquire, Mutex.Lock, hs]

/-- C1: `GetBigIntPrecision` never returns. Whatever the state of the view and of its lock,
the call either waits at its own `Lock()` or, having taken the lock, waits forever in the
`Lock()` of the nested `GetInteger` call on the same mutex. -/
theorem GetBigIntPrecision_blocked (fDecRO : FixedDecimalReadOnly) (h : Heap) :
    fDecRO.GetBigIntPrecision h = Outcome.blocked := by
  unfold GetBigIntPrecision
  cases hs : fDecRO.acquire with
  | none => rfl
  | some s =>
    have hl := (acquire_lock_held fDecRO s hs).1
    simp [GetInteger, GetIntegerBy, acquire_of_held s hl]

end FixedDecimalReadOnly

namespace FixedDecimalReadOnly

/-! ### String factories -/

/-- When the grammar rejects the input, the error of `NewNumStr` is the bare operation name:
neither the parser's error nor the input is part of it. -/
theorem NewNumStr_error_text (parse : BigIntFixedDecimal.NumStrGrammar)
    (recv : FixedDecimalReadOnly) (numStr e : String) (h : Heap)
    (hl : recv.lock ≠ some ⟨true⟩) (he : parse numStr = .error e) :
    ∃ z recv1 h1, recv.NewNumStr parse numStr h =
      .returned (z, some "FixedDecimalReadOnly.NewNumStr() ") recv1 h1 := by
  simp [NewNumStr, acquire_of_not_held recv hl, BigIntFixedDecimal.SetNumStr, he, NewZero,
    BigIntFixedDecimal.NewZero, BigIntFixedDecimal.FromInteger, bigNewInt, Errorf]

/-- C2: for the input "12a", which the grammar rejects, the error returned by
`FixedDecimalReadOnly.NewNumStr` is exactly the operation name followed by a blank. It
contains neither the input nor the text of the parser's error. -/
theorem NewNumStr_error_omits_input :
    BigIntFixedDecimal.parseNumStr "12a" = .error "invalid number string: 12a" ∧
    ∃ z recv1 h1 msg,
      zeroValue.NewNumStr BigIntFixedDecimal.parseNumStr "12a" [] =
        .returned (z, some msg) recv1 h1 ∧
      msg = "FixedDecimalReadOnly.NewNumStr() " ∧
      ¬ ("12a".toList <:+: msg.toList) ∧
      ¬ ("invalid number string: 12a".toList <:+: msg.toList) := by
  refine ⟨by rfl, ⟨⟨some 1, 0⟩, none⟩, ⟨⟨none, 0⟩, some ⟨false⟩⟩, [0, 0],
    "FixedDecimalReadOnly.NewNumStr() ", by decide, rfl, by decide, by decide⟩

end FixedDecimalReadOnly

/-- C3: parse failures are neither swallowed nor defaulted by the two views. For every
grammar, `FixedDecimalReadOnly.NewNumStr` (called with its lock absent or free) returns, and
its error is non-nil iff `SetNumStr` on a fresh zero at scale 0 returns an error;
`BigIntNumReadOnly.NewNumStr` returns a non-nil error iff `BigIntNum.NewNumStr` does. Without
an error the view wraps the value the parser produced: the same magnitude and scale. -/
theorem NewNumStr_error_iff_parser_error (parse parseNum : BigIntFixedDecimal.NumStrGrammar)
    (recv : FixedDecimalReadOnly) (birO : BigIntNumReadOnly) (numStr : String) (h : Heap)
    (hl : recv.lock ≠ some ⟨true⟩) :
    (∃ view err recv1 h1,
      recv.NewNumStr parse numStr h = .returned (view, err) recv1 h1 ∧
      (err.isSome ↔
        (BigIntFixedDecimal.SetNumStr parse (BigIntFixedDecimal.NewZero 0 h).1 numStr
          (BigIntFixedDecimal.NewZero 0 h).2).1.isSome) ∧
      (err = none →
        view.fixedDecimal.value h1 =
          (BigIntFixedDecimal.SetNumStr parse (BigIntFixedDecimal.NewZero 0 h).1 numStr
            (BigIntFixedDecimal.NewZero 0 h).2).2.1.value
          (BigIntFixedDecimal.SetNumStr parse (BigIntFixedDecimal.NewZero 0 h).1 numStr
            (BigIntFixedDecimal.NewZero 0 h).2).2.2 ∧
        ∃ m s, parse numStr = .ok (m, s) ∧ view.fixedDecimal.value h1 = (m, s))) ∧
    (((birO.NewNumStr parseNum numStr h).1.2.isSome ↔
        (BigIntNum.NewNumStr parseNum numStr h).1.2.isSome) ∧
      ((birO.NewNumStr parseNum numStr h).1.2 = none →
        (birO.NewNumStr parseNum numStr h).1.1.bigIntNum.value
            (birO.NewNumStr parseNum numStr h).2.2 =
          (BigIntNum.NewNumStr parseNum numStr h).1.1.value
            (BigIntNum.NewNumStr parseNum numStr h).2 ∧
        ∃ m s, parseNum numStr = .ok (m, s) ∧
          (birO.NewNumStr parseNum numStr h).1.1.bigIntNum.value
            (birO.NewNumStr parseNum numStr h).2.2 = (m, s))) := by
  constructor
  · cases hp : parse numStr with
    | error e =>
      have hr : recv.NewNumStr parse numStr h =
          .returned (⟨⟨some (h.length + 1), 0⟩, none⟩,
            some "FixedDecimalReadOnly.NewNumStr() ")
            ⟨recv.fixedDecimal, some ⟨false⟩⟩ (h ++ [0, 0]) := by
        simp [FixedDecimalReadOnly.NewNumStr, FixedDecimalReadOnly.acquire_of_not_held recv hl,
          BigIntFixedDecimal.SetNumStr, hp, FixedDecimalReadOnly.NewZero,
          BigIntFixedDecimal.NewZero, BigIntFixedDecimal.FromInteger, bigNewInt,
          FixedDecimalReadOnly.Errorf]
      refine ⟨_, _, _, _, hr, ?_, ?_⟩
      · simp [BigIntFixedDecimal.SetNumStr, hp]
      · simp
    | ok r =>
      obtain ⟨m, s⟩ := r
      have hr : recv.NewNumStr parse numStr h =
          .returned (⟨⟨some (h.length + 1), s⟩, none⟩, none)
            ⟨recv.fixedDecimal, some ⟨false⟩⟩ (h ++ [0, m]) := by
        simp [FixedDecimalReadOnly.NewNumStr, FixedDecimalReadOnly.acquire_of_not_held recv hl,
          BigIntFixedDecimal.SetNumStr, hp,
          BigIntFixedDecimal.NewZero, BigIntFixedDecimal.FromInteger, bigNewInt]
      refine ⟨_, _, _, _, hr, ?_, ?_⟩
      · simp [BigIntFixedDecimal.SetNumStr, hp]
      · simp [BigIntFixedDecimal.SetNumStr, hp, BigIntFixedDecimal.value,
          BigIntFixedDecimal.NewZero, BigIntFixedDecimal.FromInteger, bigNewInt]
  · cases hp : parseNum numStr with
    | error e =>
      simp [BigIntNumReadOnly.NewNumStr, BigIntNum.NewNumStr, hp]
    | ok r =>
      obtain ⟨m, s⟩ := r
      simp [BigIntNumReadOnly.NewNumStr, BigIntNum.NewNumStr, hp, BigIntNum.NewZero,
        BigIntNum.CopyIn, BigIntNum.value, bigNewInt]

/-- C3 at concrete inputs: the zero-value receivers, the modelled grammar, the accepted
input "(5.00)" in the empty store. -/
theorem NewNumStr_error_iff_parser_error_witness :
    FixedDecimalReadOnly.zeroValue.lock ≠ some ⟨true⟩ ∧
    ∃ view recv1 h1,
      FixedDecimalReadOnly.zeroValue.NewNumStr BigIntFixedDecimal.parseNumStr "(5.00)" [] =
        .returned (view, none) recv1 h1 ∧
      view.fixedDecimal.value h1 = (-500, 2) := by
  refine ⟨by decide, ?_⟩
  obtain ⟨view, err, recv1, h1, hr, -, hv⟩ :=
    (NewNumStr_error_iff_parser_error BigIntFixedDecimal.parseNumStr
      BigIntFixedDecimal.parseNumStr FixedDecimalReadOnly.zeroValue ⟨⟨none, 0⟩⟩ "(5.00)" []
      (by decide)).1
  have hd : FixedDecimalReadOnly.zeroValue.NewNumStr BigIntFixedDecimal.parseNumStr "(5.00)" []
      = .returned (⟨⟨some 1, 2⟩, none⟩, none) ⟨⟨none, 0⟩, some ⟨false⟩⟩ [0, -500] := by decide
  rw [hd] at hr
  injection hr with h1e h2e h3e
  injection h1e with hve hee
  subst hve hee h2e h3e
  exact ⟨_, _, _, hd, by decide⟩

/-! ### Lock discipline and the receiver's value -/

/-- C7: called while the lock of the view is absent or free, every operation other than
`GetBigIntPrecision` returns and leaves the lock present and free; `GetBigIntPrecision` is
the one operation that does not: it never returns. -/
theorem lock_discipline (parse : BigIntFixedDecimal.NumStrGrammar) (op : Operation)
    (recv : FixedDecimalReadOnly) (h : Heap) (hl : recv.lock ≠ some ⟨true⟩) :
    (op = .GetBigIntPrecision ∧ op.call parse recv h = .blocked) ∨
    (op ≠ .GetBigIntPrecision ∧
      ∃ recv1 h1, op.call parse recv h = .returned () recv1 h1 ∧ recv1.lock = some ⟨false⟩) := by
  have ha := FixedDecimalReadOnly.acquire_of_not_held recv hl
  cases op with
  | GetBigIntPrecision =>
    left
    have hh : ({ recv with lock := some ⟨true⟩ } : FixedDecimalReadOnly).acquire = none :=
      FixedDecimalReadOnly.acquire_of_held _ rfl
    simp [Operation.call, FixedDecimalReadOnly.GetBigIntPrecision, ha,
      FixedDecimalReadOnly.GetInteger, FixedDecimalReadOnly.GetIntegerBy, Delegates.modelled, hh, Outcome.state]
  | NewNumStr numStr =>
    right
    refine ⟨by simp, ?_⟩
    cases hp : parse numStr with
    | error e =>
      simp [Operation.call, FixedDecimalReadOnly.NewNumStr, ha, BigIntFixedDecimal.SetNumStr, hp,
        FixedDecimalReadOnly.NewZero, BigIntFixedDecimal.NewZero,
        BigIntFixedDecimal.FromInteger, bigNewInt, Outcome.state]
    | ok r =>
      simp [Operation.call, FixedDecimalReadOnly.NewNumStr, ha, BigIntFixedDecimal.SetNumStr, hp,
        BigIntFixedDecimal.NewZero, BigIntFixedDecimal.FromInteger, bigNewInt, Outcome.state]
  | NewFixedDecimal fixedDecimal =>
    right
    refine ⟨by simp, ?_⟩
    obtain ⟨m, sc⟩ := fixedDecimal
    cases m <;>
    simp [Operation.call, FixedDecimalReadOnly.NewFixedDecimal, ha, BigIntFixedDecimal.IsValid,
      FixedDecimalReadOnly.NewZero, BigIntFixedDecimal.NewZero, BigIntFixedDecimal.CopyIn,
      BigIntFixedDecimal.FromInteger, bigNewInt, Outcome.state]
  | _ =>
    right
    refine ⟨by simp, ?_⟩
    obtain ⟨⟨m, sc⟩, l⟩ := recv
    cases m <;>
    simp [Operation.call, ha, Outcome.state, bigNewInt,
      FixedDecimalReadOnly.GetFixedDecimal, FixedDecimalReadOnly.GetFixedDecimalBy, Delegates.modelled, FixedDecimalReadOnly.GetInteger, FixedDecimalReadOnly.GetIntegerBy, Delegates.modelled,
      FixedDecimalReadOnly.GetNumStr, FixedDecimalReadOnly.GetNumStrBy, Delegates.modelled, FixedDecimalReadOnly.GetPrecision, FixedDecimalReadOnly.GetPrecisionBy, Delegates.modelled,
      FixedDecimalReadOnly.GetPrecisionBigInt, FixedDecimalReadOnly.GetPrecisionBigIntBy, Delegates.modelled, FixedDecimalReadOnly.IsValid,
      FixedDecimalReadOnly.IsZero, FixedDecimalReadOnly.NewInt, FixedDecimalReadOnly.NewInt32,
      FixedDecimalReadOnly.NewInt64, FixedDecimalReadOnly.NewUInt,
      FixedDecimalReadOnly.NewUInt32, FixedDecimalReadOnly.NewUInt64,
      FixedDecimalReadOnly.NewZero,
      BigIntFixedDecimal.IsValid, BigIntFixedDecimal.CopyOut, BigIntFixedDecimal.GetInteger,
      BigIntFixedDecimal.GetNumStr, BigIntFixedDecimal.GetPrecision,
      BigIntFixedDecimal.GetPrecisionBigInt, BigIntFixedDecimal.IsZero,
      BigIntFixedDecimal.NewInt, BigIntFixedDecimal.NewInt32, BigIntFixedDecimal.NewInt64,
      BigIntFixedDecimal.NewUInt, BigIntFixedDecimal.NewUInt32, BigIntFixedDecimal.NewUInt64,
      BigIntFixedDecimal.NewZero, BigIntFixedDecimal.FromInteger]

/-- C7 at a concrete input: `GetBigIntPrecision` on the zero-value view in the empty store. -/
theorem lock_discipline_witness :
    FixedDecimalReadOnly.zeroValue.lock ≠ some ⟨true⟩ ∧
    Operation.GetBigIntPrecision.call BigIntFixedDecimal.parseNumStr
      FixedDecimalReadOnly.zeroValue [] = .blocked := by
  refine ⟨by decide, ?_⟩
  rcases lock_discipline BigIntFixedDecimal.parseNumStr .GetBigIntPrecision
    FixedDecimalReadOnly.zeroValue [] (by decide) with hb | hr
  · exact hb.2
  · exact absurd rfl hr.1

/-- C6: an operation other than `GetBigIntPrecision`, called on a view whose wrapped value is
constructed (as in every view a factory returns, see `factories_build_constructed`) and whose
lock is absent or free, returns and leaves the receiver's wrapped value as it was: the same
magnitude pointer and scale, every `big.Int` that existed before the call unchanged (the
call only allocates), hence the same magnitude and scale reported. -/
theorem receiver_value_unchanged (parse : BigIntFixedDecimal.NumStrGrammar) (op : Operation)
    (recv : FixedDecimalReadOnly) (h : Heap) (hc : recv.Constructed h)
    (hl : recv.lock ≠ some ⟨true⟩) (hop : op ≠ .GetBigIntPrecision) :
    ∃ recv1 h1, op.call parse recv h = .returned () recv1 h1 ∧
      recv1.fixedDecimal = recv.fixedDecimal ∧ h <+: h1 ∧
      recv1.fixedDecimal.value h1 = recv.fixedDecimal.value h := by
  have ha := FixedDecimalReadOnly.acquire_of_not_held recv hl
  obtain ⟨a, hm, hlt⟩ := hc
  have key : ∀ (o : Outcome Unit) (l : Heap),
      o = .returned () ⟨recv.fixedDecimal, some ⟨false⟩⟩ (h ++ l) →
      ∃ recv1 h1, o = .returned () recv1 h1 ∧
        recv1.fixedDecimal = recv.fixedDecimal ∧ h <+: h1 ∧
        recv1.fixedDecimal.value h1 = recv.fixedDecimal.value h := by
    intro o l ho
    refine ⟨_, _, ho, rfl, List.prefix_append h l, ?_⟩
    simp [BigIntFixedDecimal.value, hm, bigRead_append_old h l a hlt]
  cases op with
  | GetBigIntPrecision => exact absurd rfl hop
  | NewNumStr numStr =>
    cases hp : parse numStr with
    | error e =>
      refine key _ [0, 0] ?_
      simp [Operation.call, FixedDecimalReadOnly.NewNumStr, ha, BigIntFixedDecimal.SetNumStr, hp,
        FixedDecimalReadOnly.NewZero, BigIntFixedDecimal.NewZero,
        BigIntFixedDecimal.FromInteger, bigNewInt, Outcome.state]
    | ok r =>
      refine key _ [0, r.1] ?_
      simp [Operation.call, FixedDecimalReadOnly.NewNumStr, ha, BigIntFixedDecimal.SetNumStr, hp,
        BigIntFixedDecimal.NewZero, BigIntFixedDecimal.FromInteger, bigNewInt, Outcome.state]
  | NewFixedDecimal fixedDecimal =>
    obtain ⟨m, sc⟩ := fixedDecimal
    cases m with
    | none =>
      refine key _ [0, 0, 0] ?_
      simp [Operation.call, FixedDecimalReadOnly.NewFixedDecimal, ha, BigIntFixedDecimal.IsValid,
        FixedDecimalReadOnly.NewZero, BigIntFixedDecimal.NewZero, BigIntFixedDecimal.CopyIn,
        BigIntFixedDecimal.FromInteger, BigIntFixedDecimal.value, bigNewInt, Outcome.state]
    | some b =>
      refine key _ [0, bigRead (h ++ [0]) b] ?_
      simp [Operation.call, FixedDecimalReadOnly.NewFixedDecimal, ha, BigIntFixedDecimal.IsValid,
        FixedDecimalReadOnly.NewZero, BigIntFixedDecimal.NewZero, BigIntFixedDecimal.CopyIn,
        BigIntFixedDecimal.FromInteger, BigIntFixedDecimal.value, bigNewInt, Outcome.state]
  | GetFixedDecimal =>
    refine key _ [bigRead h a] ?_
    obtain ⟨⟨m, sc⟩, l⟩ := recv
    simp only at hm
    subst hm
    simp [Operation.call, ha, Outcome.state, bigNewInt, FixedDecimalReadOnly.GetFixedDecimal, FixedDecimalReadOnly.GetFixedDecimalBy, Delegates.modelled,
      BigIntFixedDecimal.IsValid, BigIntFixedDecimal.CopyOut, BigIntFixedDecimal.value]
  | GetInteger =>
    refine key _ [bigRead h a] ?_
    obtain ⟨⟨m, sc⟩, l⟩ := recv
    simp only at hm
    subst hm
    simp [Operation.call, ha, Outcome.state, bigNewInt, FixedDecimalReadOnly.GetInteger, FixedDecimalReadOnly.GetIntegerBy, Delegates.modelled,
      BigIntFixedDecimal.IsValid, BigIntFixedDecimal.GetInteger, BigIntFixedDecimal.value]
  | GetPrecisionBigInt =>
    obtain ⟨⟨m, sc⟩, l⟩ := recv
    refine key _ [(sc : Int)] ?_
    simp only at hm
    subst hm
    simp [Operation.call, ha, Outcome.state, bigNewInt, FixedDecimalReadOnly.GetPrecisionBigInt, FixedDecimalReadOnly.GetPrecisionBigIntBy, Delegates.modelled,
      BigIntFixedDecimal.IsValid, BigIntFixedDecimal.GetPrecisionBigInt]
  | GetNumStr =>
    refine key _ [] ?_
    obtain ⟨⟨m, sc⟩, l⟩ := recv
    simp only at hm
    subst hm
    simp [Operation.call, ha, Outcome.state, FixedDecimalReadOnly.GetNumStr, FixedDecimalReadOnly.GetNumStrBy, Delegates.modelled,
      BigIntFixedDecimal.IsValid, BigIntFixedDecimal.GetNumStr]
  | GetPrecision =>
    refine key _ [] ?_
    obtain ⟨⟨m, sc⟩, l⟩ := recv
    simp only at hm
    subst hm
    simp [Operation.call, ha, Outcome.state, FixedDecimalReadOnly.GetPrecision, FixedDecimalReadOnly.GetPrecisionBy, Delegates.modelled,
      BigIntFixedDecimal.IsValid, BigIntFixedDecimal.GetPrecision]
  | IsValid =>
    refine key _ [] ?_
    obtain ⟨⟨m, sc⟩, l⟩ := recv
    simp only at hm
    subst hm
    simp [Operation.call, ha, Outcome.state, FixedDecimalReadOnly.IsValid,
      BigIntFixedDecimal.IsValid]
  | IsZero =>
    refine key _ [] ?_
    obtain ⟨⟨m, sc⟩, l⟩ := recv
    simp only at hm
    subst hm
    simp [Operation.call, ha, Outcome.state, FixedDecimalReadOnly.IsZero,
      BigIntFixedDecimal.IsValid, BigIntFixedDecimal.IsZero]
  | NewInt v p =>
    refine key _ [v] ?_
    simp [Operation.call, ha, Outcome.state, bigNewInt, FixedDecimalReadOnly.NewInt,
      BigIntFixedDecimal.NewInt, BigIntFixedDecimal.FromInteger]
  | NewInt32 v p =>
    refine key _ [v] ?_
    simp [Operation.call, ha, Outcome.state, bigNewInt, FixedDecimalReadOnly.NewInt32,
      BigIntFixedDecimal.NewInt32, BigIntFixedDecimal.FromInteger]
  | NewInt64 v p =>
    refine key _ [v] ?_
    simp [Operation.call, ha, Outcome.state, bigNewInt, FixedDecimalReadOnly.NewInt64,
      BigIntFixedDecimal.NewInt64, BigIntFixedDecimal.FromInteger]
  | NewUInt v p =>
    refine key _ [(v : Int)] ?_
    simp [Operation.call, ha, Outcome.state, bigNewInt, FixedDecimalReadOnly.NewUInt,
      BigIntFixedDecimal.NewUInt, BigIntFixedDecimal.FromInteger]
  | NewUInt32 v p =>
    refine key _ [(v : Int)] ?_
    simp [Operation.call, ha, Outcome.state, bigNewInt, FixedDecimalReadOnly.NewUInt32,
      BigIntFixedDecimal.NewUInt32, BigIntFixedDecimal.FromInteger]
  | NewUInt64 v p =>
    refine key _ [(v : Int)] ?_
    simp [Operation.call, ha, Outcome.state, bigNewInt, FixedDecimalReadOnly.NewUInt64,
      BigIntFixedDecimal.NewUInt64, BigIntFixedDecimal.FromInteger]
  | NewZero p =>
    refine key _ [0] ?_
    simp [Operation.call, ha, Outcome.state, bigNewInt, FixedDecimalReadOnly.NewZero,
      BigIntFixedDecimal.NewZero, BigIntFixedDecimal.FromInteger]

/-- Every factory of the view, called with the lock absent or free, returns a view whose
wrapped value is constructed and whose lock is nil. -/
theorem factories_build_constructed (parse : BigIntFixedDecimal.NumStrGrammar)
    (recv : FixedDecimalReadOnly) (h : Heap) (hl : recv.lock ≠ some ⟨true⟩)
    (numStr : String) (fd : BigIntFixedDecimal) (v : Int) (u p : Nat) :
    BuildsConstructed (recv.NewInt v p h) ∧ BuildsConstructed (recv.NewInt32 v p h) ∧
    BuildsConstructed (recv.NewInt64 v p h) ∧ BuildsConstructed (recv.NewUInt u p h) ∧
    BuildsConstructed (recv.NewUInt32 u p h) ∧ BuildsConstructed (recv.NewUInt64 u p h) ∧
    BuildsConstructed (recv.NewZero p h) ∧ BuildsConstructed (recv.NewFixedDecimal fd h) ∧
    ∃ view err recv1 h1, recv.NewNumStr parse numStr h = .returned (view, err) recv1 h1 ∧
      view.Constructed h1 ∧ view.lock = none := by
  have ha := FixedDecimalReadOnly.acquire_of_not_held recv hl
  refine ⟨?_, ?_, ?_, ?_, ?_, ?_, ?_, ?_, ?_⟩
  · exact ⟨⟨⟨some h.length, p⟩, none⟩, ⟨recv.fixedDecimal, some ⟨false⟩⟩, h ++ [v], by
      simp [FixedDecimalReadOnly.NewInt, ha, BigIntFixedDecimal.NewInt,
        BigIntFixedDecimal.FromInteger, bigNewInt], ⟨h.length, rfl, by simp⟩, rfl⟩
  · exact ⟨⟨⟨some h.length, p⟩, none⟩, ⟨recv.fixedDecimal, some ⟨false⟩⟩, h ++ [v], by
      simp [FixedDecimalReadOnly.NewInt32, ha, BigIntFixedDecimal.NewInt32,
        BigIntFixedDecimal.FromInteger, bigNewInt], ⟨h.length, rfl, by simp⟩, rfl⟩
  · exact ⟨⟨⟨some h.length, p⟩, none⟩, ⟨recv.fixedDecimal, some ⟨false⟩⟩, h ++ [v], by
      simp [FixedDecimalReadOnly.NewInt64, ha, BigIntFixedDecimal.NewInt64,
        BigIntFixedDecimal.FromInteger, bigNewInt], ⟨h.length, rfl, by simp⟩, rfl⟩
  · exact ⟨⟨⟨some h.length, p⟩, none⟩, ⟨recv.fixedDecimal, some ⟨false⟩⟩, h ++ [(u : Int)], by
      simp [FixedDecimalReadOnly.NewUInt, ha, BigIntFixedDecimal.NewUInt,
        BigIntFixedDecimal.FromInteger, bigNewInt], ⟨h.length, rfl, by simp⟩, rfl⟩
  · exact ⟨⟨⟨some h.length, p⟩, none⟩, ⟨recv.fixedDecimal, some ⟨false⟩⟩, h ++ [(u : Int)], by
      simp [FixedDecimalReadOnly.NewUInt32, ha, BigIntFixedDecimal.NewUInt32,
        BigIntFixedDecimal.FromInteger, bigNewInt], ⟨h.length, rfl, by simp⟩, rfl⟩
  · exact ⟨⟨⟨some h.length, p⟩, none⟩, ⟨recv.fixedDecimal, some ⟨false⟩⟩, h ++ [(u : Int)], by
      simp [FixedDecimalReadOnly.NewUInt64, ha, BigIntFixedDecimal.NewUInt64,
        BigIntFixedDecimal.FromInteger, bigNewInt], ⟨h.length, rfl, by simp⟩, rfl⟩
  · exact ⟨⟨⟨some h.length, p⟩, none⟩, ⟨recv.fixedDecimal, some ⟨false⟩⟩, h ++ [0], by
      simp [FixedDecimalReadOnly.NewZero, ha, BigIntFixedDecimal.NewZero,
        BigIntFixedDecimal.FromInteger, bigNewInt], ⟨h.length, rfl, by simp⟩, rfl⟩
  · obtain ⟨m, sc⟩ := fd
    cases m with
    | none =>
      exact ⟨⟨⟨some (h.length + 2), 0⟩, none⟩, ⟨recv.fixedDecimal, some ⟨false⟩⟩, h ++ [0, 0, 0], by
        simp [FixedDecimalReadOnly.NewFixedDecimal, ha, BigIntFixedDecimal.IsValid,
          FixedDecimalReadOnly.NewZero, BigIntFixedDecimal.NewZero, BigIntFixedDecimal.CopyIn,
          BigIntFixedDecimal.FromInteger, BigIntFixedDecimal.value, bigNewInt],
        ⟨h.length + 2, rfl, by simp⟩, rfl⟩
    | some b =>
      exact ⟨⟨⟨some (h.length + 1), sc⟩, none⟩, ⟨recv.fixedDecimal, some ⟨false⟩⟩, h ++ [0, bigRead (h ++ [0]) b], by
        simp [FixedDecimalReadOnly.NewFixedDecimal, ha, BigIntFixedDecimal.IsValid,
          FixedDecimalReadOnly.NewZero, BigIntFixedDecimal.NewZero, BigIntFixedDecimal.CopyIn,
          BigIntFixedDecimal.FromInteger, BigIntFixedDecimal.value, bigNewInt],
        ⟨h.length + 1, rfl, by simp⟩, rfl⟩
  · cases hp : parse numStr with
    | error e =>
      exact ⟨⟨⟨some (h.length + 1), 0⟩, none⟩, some "FixedDecimalReadOnly.NewNumStr() ",
        ⟨recv.fixedDecimal, some ⟨false⟩⟩, h ++ [0, 0], by
        simp [FixedDecimalReadOnly.NewNumStr, ha, BigIntFixedDecimal.SetNumStr, hp,
          FixedDecimalReadOnly.NewZero, BigIntFixedDecimal.NewZero,
          BigIntFixedDecimal.FromInteger, bigNewInt, FixedDecimalReadOnly.Errorf], ⟨h.length + 1, rfl, by simp⟩, rfl⟩
    | ok r =>
      exact ⟨⟨⟨some (h.length + 1), r.2⟩, none⟩, none,
        ⟨recv.fixedDecimal, some ⟨false⟩⟩, h ++ [0, r.1], by
        simp [FixedDecimalReadOnly.NewNumStr, ha, BigIntFixedDecimal.SetNumStr, hp,
          BigIntFixedDecimal.NewZero, BigIntFixedDecimal.FromInteger, bigNewInt], ⟨h.length + 1, rfl, by simp⟩, rfl⟩

/-- C6 at a concrete input: the view built by `NewInt(5, 2)` on the zero value in the empty
store, then `GetNumStr` called on it. -/
theorem receiver_value_unchanged_witness :
    (FixedDecimalReadOnly.zeroValue.NewInt 5 2 []).result = some ⟨⟨some 0, 2⟩, none⟩ ∧
    ∃ recv1 h1, Operation.GetNumStr.call BigIntFixedDecimal.parseNumStr
        ⟨⟨some 0, 2⟩, none⟩ [5] = .returned () recv1 h1 ∧
      recv1.fixedDecimal.value h1 = (5, 2) := by
  refine ⟨by decide, ?_⟩
  obtain ⟨recv1, h1, hr, -, -, hv⟩ :=
    receiver_value_unchanged BigIntFixedDecimal.parseNumStr .GetNumStr ⟨⟨some 0, 2⟩, none⟩ [5]
      ⟨0, rfl, by decide⟩ (by decide) (by decide)
  exact ⟨recv1, h1, hr, by rw [hv]; decide⟩

/-! ### Deep copies -/

theorem bigRead_bigSet_append (h l : Heap) (a k : Nat) (x : Int) (ha : a < h.length) :
    bigRead (bigSet (h ++ l) a x) (h.length + k) = bigRead l k := by
  rw [bigRead_bigSet_ne (h ++ l) a (h.length + k) x (Nat.ne_of_lt (by omega))]
  simp

theorem bigRead_snoc_of_length (h : Heap) (v : Int) (n : Nat) (hn : h.length = n) :
    bigRead (h ++ [v]) n = v := by
  subst hn
  simp

theorem bigSet_length (h : Heap) (a : Addr) (x : Int) : (bigSet h a x).length = h.length := by
  simp [bigSet]

/-- C4: for a constructed `v` and a receiver whose lock is absent or free, `NewFixedDecimal(v)`
returns a view and `GetFixedDecimal` of that view returns a value equal to `v` in magnitude and
scale. The magnitudes of `v`, of the view and of the returned value are three distinct
`big.Int` objects, and overwriting the magnitude of `v` (after the view is built, or after the
copy is taken) or of the returned value with any `x` leaves `GetInteger`, `GetPrecision` and
`GetFixedDecimal` of the view reporting the magnitude and scale `v` had. -/
theorem deep_copy_round_trip (recv : FixedDecimalReadOnly) (v : BigIntFixedDecimal) (h : Heap)
    (a : Addr) (x : Int) (hv : v.magnitude = some a) (ha : a < h.length)
    (hl : recv.lock ≠ some ⟨true⟩) :
    ∃ view recv1 h1 out view1 h2 b c,
      recv.NewFixedDecimal v h = .returned view recv1 h1 ∧
      view.GetFixedDecimal h1 = .returned out view1 h2 ∧
      out.value h2 = v.value h ∧
      view.fixedDecimal.magnitude = some b ∧ view1.fixedDecimal.magnitude = some b ∧
      out.magnitude = some c ∧ a ≠ b ∧ a ≠ c ∧ b ≠ c ∧
      (view.GetInteger (bigSet h1 a x)).integer = some (v.value h).1 ∧
      (view.GetPrecision (bigSet h1 a x)).result = some (v.value h).2 ∧
      (view.GetFixedDecimal (bigSet h1 a x)).decimal = some (v.value h) ∧
      (view1.GetInteger (bigSet h2 a x)).integer = some (v.value h).1 ∧
      (view1.GetPrecision (bigSet h2 a x)).result = some (v.value h).2 ∧
      (view1.GetFixedDecimal (bigSet h2 a x)).decimal = some (v.value h) ∧
      (view1.GetInteger (bigSet h2 c x)).integer = some (v.value h).1 ∧
      (view1.GetPrecision (bigSet h2 c x)).result = some (v.value h).2 ∧
      (view1.GetFixedDecimal (bigSet h2 c x)).decimal = some (v.value h) := by
  have hacq := FixedDecimalReadOnly.acquire_of_not_held recv hl
  obtain ⟨m, sc⟩ := v
  simp only at hv
  subst hv
  have hold : bigRead (h ++ [0]) a = bigRead h a := bigRead_append_old h [0] a ha
  have hnew : recv.NewFixedDecimal ⟨some a, sc⟩ h =
      .returned ⟨⟨some (h.length + 1), sc⟩, none⟩ ⟨recv.fixedDecimal, some ⟨false⟩⟩
        (h ++ [0, bigRead h a]) := by
    simp [FixedDecimalReadOnly.NewFixedDecimal, hacq, BigIntFixedDecimal.IsValid,
      FixedDecimalReadOnly.NewZero, BigIntFixedDecimal.NewZero, BigIntFixedDecimal.CopyIn,
      BigIntFixedDecimal.FromInteger, BigIntFixedDecimal.value, bigNewInt, hold]
  have hget : FixedDecimalReadOnly.GetFixedDecimal ⟨⟨some (h.length + 1), sc⟩, none⟩
      (h ++ [0, bigRead h a]) =
      .returned ⟨some (h.length + 2), sc⟩ ⟨⟨some (h.length + 1), sc⟩, some ⟨false⟩⟩
        (h ++ [0, bigRead h a, bigRead h a]) := by
    simp [FixedDecimalReadOnly.GetFixedDecimal, FixedDecimalReadOnly.GetFixedDecimalBy, Delegates.modelled, BigIntFixedDecimal.IsValid,
      BigIntFixedDecimal.CopyOut, BigIntFixedDecimal.value, bigNewInt]
  have r2 : ∀ (y : Int) (l : Heap),
      bigRead (bigSet (h ++ y :: bigRead h a :: l) a x) (h.length + 1) = bigRead h a := by
    intro y l
    simpa using bigRead_bigSet_append h (y :: bigRead h a :: l) a 1 x ha
  have r3 : ∀ (y z : Int),
      bigRead (bigSet (h ++ [y, bigRead h a, z]) (h.length + 2) x) (h.length + 1)
        = bigRead h a := by
    intro y z
    rw [bigRead_bigSet_ne (h ++ [y, bigRead h a, z]) (h.length + 2) (h.length + 1) x
      (Nat.ne_of_gt (by omega))]
    simp
  have n1 : a ≠ h.length + 1 := Nat.ne_of_lt (Nat.lt_succ_of_lt ha)
  have n2 : a ≠ h.length + 2 := Nat.ne_of_lt (Nat.lt_succ_of_lt (Nat.lt_succ_of_lt ha))
  have n3 : h.length + 1 ≠ h.length + 2 := Nat.ne_of_lt (by omega)
  refine ⟨_, _, _, _, _, _, h.length + 1, h.length + 2, hnew, hget, ?_, rfl, rfl, rfl,
    n1, n2, n3, ?_, ?_, ?_, ?_, ?_, ?_, ?_, ?_, ?_⟩
  · simp [BigIntFixedDecimal.value]
  all_goals
    simp [FixedDecimalReadOnly.GetInteger, FixedDecimalReadOnly.GetIntegerBy, Delegates.modelled, FixedDecimalReadOnly.GetPrecision, FixedDecimalReadOnly.GetPrecisionBy, Delegates.modelled,
      FixedDecimalReadOnly.GetFixedDecimal, FixedDecimalReadOnly.GetFixedDecimalBy, Delegates.modelled, FixedDecimalReadOnly.acquire, Mutex.Lock,
      BigIntFixedDecimal.IsValid, BigIntFixedDecimal.GetInteger,
      BigIntFixedDecimal.GetPrecision, BigIntFixedDecimal.CopyOut, BigIntFixedDecimal.value,
      bigNewInt, Outcome.integer, Outcome.result, Outcome.decimal, bigSet_length, r2, r3] <;>
    exact bigRead_snoc_of_length _ _ _ (by simp [bigSet])

/-- C4 at a concrete input: `v` is 12.34 (magnitude 1234 at address 0, scale 2), the receiver
is the zero value and the magnitude of `v` is overwritten with 9. -/
theorem deep_copy_round_trip_witness :
    ∃ view recv1 h1 out view1 h2,
      FixedDecimalReadOnly.zeroValue.NewFixedDecimal ⟨some 0, 2⟩ [1234] =
        .returned view recv1 h1 ∧
      view.GetFixedDecimal h1 = .returned out view1 h2 ∧
      out.value h2 = (1234, 2) ∧
      (view.GetInteger (bigSet h1 0 9)).integer = some 1234 := by
  obtain ⟨view, recv1, h1, out, view1, h2, b, c, hn, hg, hr, -, -, -, -, -, -, hi, -⟩ :=
    deep_copy_round_trip FixedDecimalReadOnly.zeroValue ⟨some 0, 2⟩ [1234] 0 9 rfl
      (by decide) (by decide)
  exact ⟨view, recv1, h1, out, view1, h2, hn, hg, hr, hi⟩

/-! ### `BigIntNumReadOnly` -/

namespace BigIntNumReadOnly

/-- C9: for a constructed `BigIntNum` `b`, `NewBigIntNum(b)` returns a view and
`GetBigIntNum` of that view returns a value equal to `b` in integer value and precision;
`GetIntegerValue` and `GetPrecisionUint` of the view report what the same accessors of `b`
report. It is a deep copy: the integers of `b`, of the view, of the value returned by
`GetBigIntNum` and the `big.Int` returned by `GetIntegerValue` are distinct objects, and
overwriting the integer of `b`, of the returned value or the returned `big.Int` with any `x`
leaves `GetIntegerValue`, `GetPrecisionUint` and `GetBigIntNum` of the view reporting the
integer value and precision `b` had. `NewBigIntNum` and the four accessors leave the value
the receiver view reports unchanged, for every receiver whose integer is nil or allocated. -/
theorem deep_copy_contract (birO : BigIntNumReadOnly) (b : BigIntNum) (h : Heap) (a : Addr)
    (x : Int) (hb : b.integerValue = some a) (ha : a < h.length)
    (hr : ptrValid birO.bigIntNum.integerValue h) :
    (∃ view birO1 h1 out view1 h2 p view2 h3 vb c,
      birO.NewBigIntNum b h = (view, birO1, h1) ∧
      view.GetBigIntNum h1 = (out, view1, h2) ∧
      view.GetIntegerValue h1 = (some p, view2, h3) ∧
      out.value h2 = b.value h ∧
      reportedInteger (view.GetIntegerValue h1) = reportedInteger (b.GetIntegerValue h) ∧
      reportedInteger (view.GetIntegerValue h1) = some (b.value h).1 ∧
      (view.GetPrecisionUint h1).1 = (b.GetPrecisionUint h).1 ∧
      (view.GetPrecisionUint h1).1 = b.precision ∧
      view.bigIntNum.integerValue = some vb ∧ view1.bigIntNum.integerValue = some vb ∧
      view2.bigIntNum.integerValue = some vb ∧ out.integerValue = some c ∧
      a ≠ vb ∧ a ≠ c ∧ vb ≠ c ∧ a ≠ p ∧ vb ≠ p ∧
      reportedInteger (view.GetIntegerValue (bigSet h1 a x)) = some (b.value h).1 ∧
      (view.GetPrecisionUint (bigSet h1 a x)).1 = b.precision ∧
      reportedNum (view.GetBigIntNum (bigSet h1 a x)) = b.value h ∧
      reportedInteger (view1.GetIntegerValue (bigSet h2 a x)) = some (b.value h).1 ∧
      (view1.GetPrecisionUint (bigSet h2 a x)).1 = b.precision ∧
      reportedNum (view1.GetBigIntNum (bigSet h2 a x)) = b.value h ∧
      reportedInteger (view1.GetIntegerValue (bigSet h2 c x)) = some (b.value h).1 ∧
      (view1.GetPrecisionUint (bigSet h2 c x)).1 = b.precision ∧
      reportedNum (view1.GetBigIntNum (bigSet h2 c x)) = b.value h ∧
      reportedInteger (view2.GetIntegerValue (bigSet h3 p x)) = some (b.value h).1 ∧
      (view2.GetPrecisionUint (bigSet h3 p x)).1 = b.precision ∧
      reportedNum (view2.GetBigIntNum (bigSet h3 p x)) = b.value h) ∧
    (birO.NewBigIntNum b h).2.1.bigIntNum.value (birO.NewBigIntNum b h).2.2 =
      birO.bigIntNum.value h ∧
    (birO.GetIntegerValue h).2.1.bigIntNum.value (birO.GetIntegerValue h).2.2 =
      birO.bigIntNum.value h ∧
    (birO.GetPrecisionUint h).2.1.bigIntNum.value (birO.GetPrecisionUint h).2.2 =
      birO.bigIntNum.value h ∧
    (birO.GetBigIntNum h).2.1.bigIntNum.value (birO.GetBigIntNum h).2.2 =
      birO.bigIntNum.value h ∧
    (birO.GetFixedDecimal h).2.1.bigIntNum.value (birO.GetFixedDecimal h).2.2 =
      birO.bigIntNum.value h := by
  obtain ⟨m, p0⟩ := b
  simp only at hb
  subst hb
  have hold : bigRead (h ++ [0]) a = bigRead h a := bigRead_append_old h [0] a ha
  constructor
  · have hnew : birO.NewBigIntNum ⟨some a, p0⟩ h =
        (⟨⟨some (h.length + 1), p0⟩⟩, birO, h ++ [0, bigRead h a]) := by
      simp [NewBigIntNum, BigIntNum.NewZero, BigIntNum.CopyIn, BigIntNum.value, bigNewInt, hold]
    have hget : GetBigIntNum ⟨⟨some (h.length + 1), p0⟩⟩ (h ++ [0, bigRead h a]) =
        (⟨some (h.length + 2), p0⟩, ⟨⟨some (h.length + 1), p0⟩⟩,
          h ++ [0, bigRead h a, bigRead h a]) := by
      simp [GetBigIntNum, BigIntNum.CopyOut, BigIntNum.IsValid, BigIntNum.value, bigNewInt]
    have hint : GetIntegerValue ⟨⟨some (h.length + 1), p0⟩⟩ (h ++ [0, bigRead h a]) =
        (some (h.length + 2), ⟨⟨some (h.length + 1), p0⟩⟩,
          h ++ [0, bigRead h a, bigRead h a]) := by
      simp [GetIntegerValue, BigIntNum.GetIntegerValue, BigIntNum.IsValid, BigIntNum.value,
        bigNewInt]
    have r2 : ∀ (y : Int) (l : Heap),
        bigRead (bigSet (h ++ y :: bigRead h a :: l) a x) (h.length + 1) = bigRead h a := by
      intro y l
      simpa using bigRead_bigSet_append h (y :: bigRead h a :: l) a 1 x ha
    have r3 : ∀ (y z : Int),
        bigRead (bigSet (h ++ [y, bigRead h a, z]) (h.length + 2) x) (h.length + 1)
          = bigRead h a := by
      intro y z
      rw [bigRead_bigSet_ne (h ++ [y, bigRead h a, z]) (h.length + 2) (h.length + 1) x
        (Nat.ne_of_gt (by omega))]
      simp
    have n1 : a ≠ h.length + 1 := Nat.ne_of_lt (Nat.lt_succ_of_lt ha)
    have n2 : a ≠ h.length + 2 := Nat.ne_of_lt (Nat.lt_succ_of_lt (Nat.lt_succ_of_lt ha))
    have n3 : h.length + 1 ≠ h.length + 2 := Nat.ne_of_lt (by omega)
    refine ⟨_, _, _, _, _, _, h.length + 2, _, _, h.length + 1, h.length + 2, hnew, hget, hint,
      ?_, ?_, ?_, ?_, ?_, rfl, rfl, rfl, rfl, n1, n2, n3, n2, n3,
      ?_, ?_, ?_, ?_, ?_, ?_, ?_, ?_, ?_, ?_, ?_, ?_⟩
    · simp [BigIntNum.value]
    · simp [hint, reportedInteger, BigIntNum.GetIntegerValue, BigIntNum.IsValid,
        BigIntNum.value, bigNewInt]
    · simp [hint, reportedInteger, BigIntNum.value]
    · simp [GetPrecisionUint, BigIntNum.GetPrecisionUint, BigIntNum.IsValid]
    · simp [GetPrecisionUint, BigIntNum.GetPrecisionUint, BigIntNum.IsValid]
    all_goals
      simp [GetIntegerValue, GetPrecisionUint, GetBigIntNum, BigIntNum.GetIntegerValue,
        BigIntNum.GetPrecisionUint, BigIntNum.CopyOut, BigIntNum.IsValid, BigIntNum.value,
        bigNewInt, reportedInteger, reportedNum, bigSet_length, r2, r3] <;>
      exact bigRead_snoc_of_length _ _ _ (by simp [bigSet])
  · obtain ⟨⟨rm, rp⟩⟩ := birO
    cases rm with
    | none =>
      simp [NewBigIntNum, GetBigIntNum, GetIntegerValue, GetPrecisionUint, GetFixedDecimal,
        BigIntNum.NewZero, BigIntNum.CopyIn, BigIntNum.CopyOut, BigIntNum.IsValid,
        BigIntNum.GetIntegerValue, BigIntNum.GetPrecisionUint, BigIntNum.GetBigIntFixedDecimal,
        BigIntNum.value, bigNewInt]
    | some c =>
      have hc : c < h.length := hr c rfl
      have o1 : ∀ l : Heap, bigRead (h ++ l) c = bigRead h c :=
        fun l => bigRead_append_old h l c hc
      simp [NewBigIntNum, GetBigIntNum, GetIntegerValue, GetPrecisionUint, GetFixedDecimal,
        BigIntNum.NewZero, BigIntNum.CopyIn, BigIntNum.CopyOut, BigIntNum.IsValid,
        BigIntNum.GetIntegerValue, BigIntNum.GetPrecisionUint, BigIntNum.GetBigIntFixedDecimal,
        BigIntNum.value, bigNewInt, o1]

/-- C9 at a concrete input: `b` is 1234 at precision 2 (address 0), the receiver is the zero
value and the integer of `b` is overwritten with 9. -/
theorem deep_copy_contract_witness :
    ∃ view birO1 h1 out view1 h2,
      NewBigIntNum ⟨⟨none, 0⟩⟩ ⟨some 0, 2⟩ [1234] = (view, birO1, h1) ∧
      view.GetBigIntNum h1 = (out, view1, h2) ∧
      out.value h2 = (1234, 2) ∧
      reportedInteger (view.GetIntegerValue (bigSet h1 0 9)) = some 1234 := by
  obtain ⟨⟨view, birO1, h1, out, view1, h2, p, view2, h3, vb, c, hn, hg, -, hv, -, -, -, -,
      -, -, -, -, -, -, -, -, -, hi, -⟩, -⟩ :=
    deep_copy_contract ⟨⟨none, 0⟩⟩ ⟨some 0, 2⟩ [1234] 0 9 rfl (by decide)
      (by intro a ha; cases ha)
  exact ⟨view, birO1, h1, out, view1, h2, hn, hg, hv, hi⟩

end BigIntNumReadOnly

/-! ### Self-healing through the view -/

theorem isValidTimes_constructed (n : Nat) (a : Addr) (sc : Nat) (h : Heap) :
    isValidTimes n ⟨⟨some a, sc⟩, some ⟨false⟩⟩ h =
      some (List.replicate n true, ⟨⟨some a, sc⟩, some ⟨false⟩⟩, h) := by
  induction n with
  | zero => rfl
  | succ k ih =>
    simp [isValidTimes, FixedDecimalReadOnly.IsValid, FixedDecimalReadOnly.acquire, Mutex.Lock,
      BigIntFixedDecimal.IsValid, ih, List.replicate_succ]

/-- C10: each of `GetFixedDecimal`, `GetInteger`, `GetNumStr`, `GetPrecision` and
`GetPrecisionBigInt` invokes `IsValid` on the wrapped value before it delegates: whatever
the accessors of the wrapped value are (they may fail on an unconstructed receiver), the
getter hands them the value already healed by `IsValid` and returns what they return. So
on an unconstructed view (magnitude nil, scale 0, lock absent or free), with accessors that
are only required to follow the spec on constructed receivers, each getter returns and
reports canonical zero instead of failing; the same holds with the accessors modelled from
the spec. The first call of the view's `IsValid` returns false and leaves the wrapped value
at magnitude 0, scale 0; every further call returns true and leaves the state of the view
and of the store exactly as the first call left it. -/
theorem self_healing_view (d : Delegates) (fd : BigIntFixedDecimal) (l : Option Mutex)
    (h : Heap) (hl : l ≠ some ⟨true⟩) (hd : d.Sound) :
    (FixedDecimalReadOnly.GetFixedDecimalBy d ⟨fd, l⟩ h =
      delegated (d.CopyOut (fd.IsValid h).2.1 (fd.IsValid h).2.2) ∧
     FixedDecimalReadOnly.GetIntegerBy d ⟨fd, l⟩ h =
      delegated (d.GetInteger (fd.IsValid h).2.1 (fd.IsValid h).2.2) ∧
     FixedDecimalReadOnly.GetNumStrBy d ⟨fd, l⟩ h =
      delegated (d.GetNumStr (fd.IsValid h).2.1 (fd.IsValid h).2.2) ∧
     FixedDecimalReadOnly.GetPrecisionBy d ⟨fd, l⟩ h =
      delegated (d.GetPrecision (fd.IsValid h).2.1 (fd.IsValid h).2.2) ∧
     FixedDecimalReadOnly.GetPrecisionBigIntBy d ⟨fd, l⟩ h =
      delegated (d.GetPrecisionBigInt (fd.IsValid h).2.1 (fd.IsValid h).2.2)) ∧
    ((FixedDecimalReadOnly.GetFixedDecimalBy d ⟨⟨none, 0⟩, l⟩ h).decimal = some (0, 0) ∧
     (FixedDecimalReadOnly.GetIntegerBy d ⟨⟨none, 0⟩, l⟩ h).integer = some 0 ∧
     (FixedDecimalReadOnly.GetNumStrBy d ⟨⟨none, 0⟩, l⟩ h).result = some "0" ∧
     (FixedDecimalReadOnly.GetPrecisionBy d ⟨⟨none, 0⟩, l⟩ h).result = some 0 ∧
     (FixedDecimalReadOnly.GetPrecisionBigIntBy d ⟨⟨none, 0⟩, l⟩ h).integer = some 0) ∧
    ((FixedDecimalReadOnly.GetFixedDecimal ⟨⟨none, 0⟩, l⟩ h).decimal = some (0, 0) ∧
     (FixedDecimalReadOnly.GetInteger ⟨⟨none, 0⟩, l⟩ h).integer = some 0 ∧
     (FixedDecimalReadOnly.GetNumStr ⟨⟨none, 0⟩, l⟩ h).result = some "0" ∧
     (FixedDecimalReadOnly.GetPrecision ⟨⟨none, 0⟩, l⟩ h).result = some 0 ∧
     (FixedDecimalReadOnly.GetPrecisionBigInt ⟨⟨none, 0⟩, l⟩ h).integer = some 0) ∧
    ∃ s1 h1, FixedDecimalReadOnly.IsValid ⟨⟨none, 0⟩, l⟩ h = .returned false s1 h1 ∧
      s1.fixedDecimal.magnitude.isSome ∧ s1.fixedDecimal.value h1 = (0, 0) ∧
      ∀ n, isValidTimes (n + 1) ⟨⟨none, 0⟩, l⟩ h =
        some (false :: List.replicate n true, s1, h1) := by
  have hz : BigIntFixedDecimal.formatNumStr 0 0 = "0" := by decide
  have key : ∀ d1 : Delegates,
      (∀ fd1 : BigIntFixedDecimal,
        FixedDecimalReadOnly.GetFixedDecimalBy d1 ⟨fd1, l⟩ h =
          delegated (d1.CopyOut (fd1.IsValid h).2.1 (fd1.IsValid h).2.2) ∧
        FixedDecimalReadOnly.GetIntegerBy d1 ⟨fd1, l⟩ h =
          delegated (d1.GetInteger (fd1.IsValid h).2.1 (fd1.IsValid h).2.2) ∧
        FixedDecimalReadOnly.GetNumStrBy d1 ⟨fd1, l⟩ h =
          delegated (d1.GetNumStr (fd1.IsValid h).2.1 (fd1.IsValid h).2.2) ∧
        FixedDecimalReadOnly.GetPrecisionBy d1 ⟨fd1, l⟩ h =
          delegated (d1.GetPrecision (fd1.IsValid h).2.1 (fd1.IsValid h).2.2) ∧
        FixedDecimalReadOnly.GetPrecisionBigIntBy d1 ⟨fd1, l⟩ h =
          delegated (d1.GetPrecisionBigInt (fd1.IsValid h).2.1 (fd1.IsValid h).2.2)) := by
    intro d1 fd1
    have ha := FixedDecimalReadOnly.acquire_of_not_held ⟨fd1, l⟩ hl
    obtain ⟨m, sc⟩ := fd1
    cases m with
    | none =>
      refine ⟨?_, ?_, ?_, ?_, ?_⟩
      · simp only [FixedDecimalReadOnly.GetFixedDecimalBy, ha, BigIntFixedDecimal.IsValid,
          bigNewInt, delegated]
        cases d1.CopyOut ⟨some h.length, 0⟩ (h ++ [0]) <;> simp
      · simp only [FixedDecimalReadOnly.GetIntegerBy, ha, BigIntFixedDecimal.IsValid,
          bigNewInt, delegated]
        cases d1.GetInteger ⟨some h.length, 0⟩ (h ++ [0]) <;> simp
      · simp only [FixedDecimalReadOnly.GetNumStrBy, ha, BigIntFixedDecimal.IsValid,
          bigNewInt, delegated]
        cases d1.GetNumStr ⟨some h.length, 0⟩ (h ++ [0]) <;> simp
      · simp only [FixedDecimalReadOnly.GetPrecisionBy, ha, BigIntFixedDecimal.IsValid,
          bigNewInt, delegated]
        cases d1.GetPrecision ⟨some h.length, 0⟩ (h ++ [0]) <;> simp
      · simp only [FixedDecimalReadOnly.GetPrecisionBigIntBy, ha, BigIntFixedDecimal.IsValid,
          bigNewInt, delegated]
        cases d1.GetPrecisionBigInt ⟨some h.length, 0⟩ (h ++ [0]) <;> simp
    | some a =>
      refine ⟨?_, ?_, ?_, ?_, ?_⟩
      · simp only [FixedDecimalReadOnly.GetFixedDecimalBy, ha, BigIntFixedDecimal.IsValid,
          delegated]
        cases d1.CopyOut ⟨some a, sc⟩ h <;> simp
      · simp only [FixedDecimalReadOnly.GetIntegerBy, ha, BigIntFixedDecimal.IsValid,
          delegated]
        cases d1.GetInteger ⟨some a, sc⟩ h <;> simp
      · simp only [FixedDecimalReadOnly.GetNumStrBy, ha, BigIntFixedDecimal.IsValid,
          delegated]
        cases d1.GetNumStr ⟨some a, sc⟩ h <;> simp
      · simp only [FixedDecimalReadOnly.GetPrecisionBy, ha, BigIntFixedDecimal.IsValid,
          delegated]
        cases d1.GetPrecision ⟨some a, sc⟩ h <;> simp
      · simp only [FixedDecimalReadOnly.GetPrecisionBigIntBy, ha, BigIntFixedDecimal.IsValid,
          delegated]
        cases d1.GetPrecisionBigInt ⟨some a, sc⟩ h <;> simp
  have zero : ∀ d1 : Delegates, d1.Sound →
      (FixedDecimalReadOnly.GetFixedDecimalBy d1 ⟨⟨none, 0⟩, l⟩ h).decimal = some (0, 0) ∧
      (FixedDecimalReadOnly.GetIntegerBy d1 ⟨⟨none, 0⟩, l⟩ h).integer = some 0 ∧
      (FixedDecimalReadOnly.GetNumStrBy d1 ⟨⟨none, 0⟩, l⟩ h).result = some "0" ∧
      (FixedDecimalReadOnly.GetPrecisionBy d1 ⟨⟨none, 0⟩, l⟩ h).result = some 0 ∧
      (FixedDecimalReadOnly.GetPrecisionBigIntBy d1 ⟨⟨none, 0⟩, l⟩ h).integer = some 0 := by
    intro d1 hs
    obtain ⟨k1, k2, k3, k4, k5⟩ := key d1 ⟨none, 0⟩
    obtain ⟨s1, s2, s3, s4, s5⟩ := hs ⟨some h.length, 0⟩ (h ++ [0]) rfl
    refine ⟨?_, ?_, ?_, ?_, ?_⟩
    · rw [k1]
      simp [BigIntFixedDecimal.IsValid, bigNewInt, s1, delegated, BigIntFixedDecimal.CopyOut,
        BigIntFixedDecimal.value, Outcome.decimal]
    · rw [k2]
      simp [BigIntFixedDecimal.IsValid, bigNewInt, s2, delegated, BigIntFixedDecimal.GetInteger,
        BigIntFixedDecimal.value, Outcome.integer]
    · rw [k3]
      simp [BigIntFixedDecimal.IsValid, bigNewInt, s3, delegated, BigIntFixedDecimal.GetNumStr,
        BigIntFixedDecimal.value, Outcome.result, hz]
    · rw [k4]
      simp [BigIntFixedDecimal.IsValid, bigNewInt, s4, delegated,
        BigIntFixedDecimal.GetPrecision, Outcome.result]
    · rw [k5]
      simp [BigIntFixedDecimal.IsValid, bigNewInt, s5, delegated,
        BigIntFixedDecimal.GetPrecisionBigInt, Outcome.integer]
  have hm : Delegates.modelled.Sound := by
    intro fd1 h1 _
    simp [Delegates.modelled]
  have ha := FixedDecimalReadOnly.acquire_of_not_held ⟨⟨none, 0⟩, l⟩ hl
  refine ⟨key d fd, zero d hd, zero Delegates.modelled hm,
    ⟨⟨some h.length, 0⟩, some ⟨false⟩⟩, h ++ [0], ?_, rfl, ?_, ?_⟩
  · simp [FixedDecimalReadOnly.IsValid, ha, BigIntFixedDecimal.IsValid, bigNewInt]
  · simp [BigIntFixedDecimal.value]
  · intro n
    simp [isValidTimes, FixedDecimalReadOnly.IsValid, ha, BigIntFixedDecimal.IsValid, bigNewInt,
      isValidTimes_constructed]

theorem strict_sound : Delegates.strict.Sound := by
  intro fd h hm
  simp [Delegates.strict, hm]

/-- C10 at a concrete input: the zero-value view in the empty store, with accessors that
fail when called on the unconstructed value directly. Through the view `GetInteger` reports
0 and `GetNumStr` reports "0"; three calls of `IsValid` return false, true, true. -/
theorem self_healing_view_witness :
    Delegates.strict.GetInteger ⟨none, 0⟩ [] = none ∧
    Delegates.strict.GetNumStr ⟨none, 0⟩ [] = none ∧
    (FixedDecimalReadOnly.GetIntegerBy Delegates.strict
      FixedDecimalReadOnly.zeroValue []).integer = some 0 ∧
    (FixedDecimalReadOnly.GetNumStrBy Delegates.strict
      FixedDecimalReadOnly.zeroValue []).result = some "0" ∧
    isValidTimes 3 FixedDecimalReadOnly.zeroValue [] =
      some ([false, true, true], ⟨⟨some 0, 0⟩, some ⟨false⟩⟩, [0]) := by
  have hs := self_healing_view Delegates.strict ⟨none, 0⟩ none [] (by decide) strict_sound
  refine ⟨by decide, by decide, hs.2.1.2.1, hs.2.1.2.2.1, ?_⟩
  obtain ⟨s1, h1, h1r, -, -, hn⟩ := hs.2.2.2
  have h3 := hn 2
  have hd : FixedDecimalReadOnly.IsValid ⟨⟨none, 0⟩, none⟩ [] =
      .returned false ⟨⟨some 0, 0⟩, some ⟨false⟩⟩ [0] := by decide
  rw [hd] at h1r
  injection h1r with _ e1 e2
  subst e1 e2
  exact h3


/-! ### Concurrent readers -/

theorem serialised_step (w : TwoReaders) (i : Fin 2) (hw : w.Serialised) :
    (w.step i).Serialised := by
  obtain ⟨⟨fd, lock, mutexes, heap, fatal⟩, ⟨pc0, d0, res0⟩, ⟨pc1, d1, res1⟩⟩ := w
  obtain ⟨h1, h2, h3, h4, h5, h6, h7, h8⟩ := hw
  simp only at h1 h2 h3 h4 h5 h6 h7 h8
  subst h1 h2 h3
  fin_cases i <;> cases pc0 <;> cases pc1 <;>
    simp_all [TwoReaders.Serialised, TwoReaders.step, Reader.step, Reader.inCriticalSection]

/-- When the lock of the view exists before the first call, two readers of `GetInteger`
are serialised by it in every schedule, whatever the wrapped value. -/
theorem serialised_when_lock_exists (fd : BigIntFixedDecimal) (schedule : List (Fin 2)) :
    ((TwoReaders.start fd (some 0) [false]).run schedule).Serialised := by
  have hrun : ∀ (sch : List (Fin 2)) (w : TwoReaders), w.Serialised →
      (w.run sch).Serialised := by
    intro sch
    induction sch with
    | nil => intro w hw; exact hw
    | cons i rest ih =>
      intro w hw
      exact ih (w.step i) (serialised_step w i hw)
  refine hrun schedule _ ?_
  simp [TwoReaders.Serialised, TwoReaders.start, Reader.inCriticalSection]

/-- C8: two readers call `GetInteger` on the zero-value view, whose lock is created lazily.
A reader alone returns with the one mutex free. With the schedule 0,1,0,0,0,1,1,1 both
readers pass the nil test before either assigns, each installs a mutex of its own, and both
are inside the critical section at once, holding two different mutexes: they are not
serialised by one lock. With the schedule 0,1,0,0,1,0,0,0 reader 0 locks its mutex, reader
1 replaces the pointer, and the deferred `Unlock()` of reader 0 hits the mutex of reader 1,
which is not held: the runtime stops with a fatal error and reader 0 returns no value. -/
theorem concurrent_readers_not_serialised :
    ((TwoReaders.zeroValue.run [0, 0, 0, 0, 0, 0]).r0.pc = .done ∧
     (TwoReaders.zeroValue.run [0, 0, 0, 0, 0, 0]).view.fatal = false ∧
     (TwoReaders.zeroValue.run [0, 0, 0, 0, 0, 0]).view.mutexes = [false] ∧
     (TwoReaders.zeroValue.run [0, 0, 0, 0, 0, 0]).r0.result = some (some 1) ∧
     bigRead (TwoReaders.zeroValue.run [0, 0, 0, 0, 0, 0]).view.heap 1 = 0) ∧
    ((TwoReaders.zeroValue.run [0, 1, 0, 0, 0, 1, 1, 1]).r0.inCriticalSection = true ∧
     (TwoReaders.zeroValue.run [0, 1, 0, 0, 0, 1, 1, 1]).r1.inCriticalSection = true ∧
     (TwoReaders.zeroValue.run [0, 1, 0, 0, 0, 1, 1, 1]).r0.deferred = some 0 ∧
     (TwoReaders.zeroValue.run [0, 1, 0, 0, 0, 1, 1, 1]).r1.deferred = some 1 ∧
     (TwoReaders.zeroValue.run [0, 1, 0, 0, 0, 1, 1, 1]).view.mutexes = [true, true] ∧
     (TwoReaders.zeroValue.run [0, 1, 0, 0, 0, 1, 1, 1]).view.fatal = false) ∧
    ((TwoReaders.zeroValue.run [0, 1, 0, 0, 1, 0, 0, 0]).view.fatal = true ∧
     (TwoReaders.zeroValue.run [0, 1, 0, 0, 1, 0, 0, 0]).r0.pc = .unlock ∧
     (TwoReaders.zeroValue.run [0, 1, 0, 0, 1, 0, 0, 0]).r0.deferred = some 1 ∧
     (TwoReaders.zeroValue.run [0, 1, 0, 0, 1, 0, 0, 0]).view.mutexes = [true, false]) := by
  decide

end MathOps
